import Mathlib

/-!
Verification development for the Interview Session Engine of the
assignment-api repository (NestJS/TypeORM).  The definitions below are a
shallow embedding of `InterviewService` (src/modules/interview, the file
holding `startInterviewSession`, `getCurrentQuestion`, `submitAnswer`,
`moveToNextQuestion`, `completeInterview`, `getSessionById`,
`getSessionAnswers`, `validateSessionOwnership`, `parseQuestions`) and of
`EvaluationService.evaluateAnswers`.

Modelling conventions:
* JavaScript numbers are modelled as `ℚ` (scores) or `Int` (indices);
  timestamps (`new Date()`) as a `Nat` parameter `now`.
* A JavaScript value that may be `undefined`/`null` is an `Option`.
* `NotFoundException` and `BadRequestException` are the two error
  constructors of `ApiError`, carrying the exact message strings of the
  source.  (The spec's `InvalidState`/`OutOfRange` are both raised as
  `BadRequestException` in the source.)
* The TypeORM repositories are a `Store` record of lists; `findOne` is
  `List.find?`, `save` of an existing entity replaces the record with the
  same primary key `id`, `save` of a created entity appends it.
  `find({order: {questionIndex: 'ASC'}})` is an insertion sort on
  `questionIndex`.
* The external OpenAI calls are parameters: the grader call inside
  `evaluateAnswers` is an `Except String GraderResponse` argument
  (`.error` covers transport failure, unparseable JSON, a missing API key
  and a response failing the `Array.isArray` shape check — every path that
  the source's catch block rewraps); the generator response fed to
  `parseQuestions` is an `Option (List RawQuestion)` (`none` models a
  response without a `questions` array).
* JavaScript `0/0` (the overall score of an empty score list) is `NaN`;
  an overall score is therefore an `Option ℚ` with `none` for `NaN`.
-/

namespace Engine

/-- One generated interview question (`InterviewQuestion` in the source). -/
structure Question where
  skill : String
  question : String
  difficulty : String
  category : String
  expectedAnswer : Option String
deriving DecidableEq

/-- Caller-visible structured errors: `NotFoundException` and
`BadRequestException` with their message strings. -/
inductive ApiError where
  | notFound (msg : String)
  | badRequest (msg : String)
deriving DecidableEq

instance {ε α : Type} [DecidableEq ε] [DecidableEq α] : DecidableEq (Except ε α) :=
  fun a b =>
    match a, b with
    | .error e, .error f => decidable_of_iff (e = f) (by simp)
    | .error _, .ok _ => isFalse (by simp)
    | .ok _, .error _ => isFalse (by simp)
    | .ok x, .ok y => decidable_of_iff (x = y) (by simp)

/-- Session lifecycle states (`InterviewSessionStatus`). -/
inductive SessionStatus where
  | notStarted
  | inProgress
  | completed
deriving DecidableEq

/-- Per-answer evaluation blob stored on an Answer record
(`AnswerEvaluation` in answer.entity.ts). -/
structure AnswerEvaluation where
  score : ℚ
  feedback : String
  strengths : List String
  weaknesses : List String
deriving DecidableEq

/-- An Answer record (answer.entity.ts).  `id` is the primary key. -/
structure Answer where
  id : Nat
  sessionId : String
  questionIndex : Int
  questionText : String
  transcription : String
  evaluation : Option AnswerEvaluation
  answeredAt : Nat
deriving DecidableEq

/-- Entry of the per-skill breakdown declared on the session entity. -/
structure SkillBreakdownEntry where
  skill : String
  averageScore : ℚ
  questionCount : Nat
deriving DecidableEq

/-- Entry of the per-category breakdown declared on the session entity. -/
structure CategoryBreakdownEntry where
  category : String
  averageScore : ℚ
  questionCount : Nat
deriving DecidableEq

/-- Aggregate min/max/median block declared on the session entity. -/
structure PerformanceMetrics where
  min : ℚ
  max : ℚ
  median : ℚ
deriving DecidableEq

/-- An InterviewSession record (interview-session.entity.ts). -/
structure Session where
  id : String
  interviewId : String
  userId : String
  currentQuestionIndex : Int
  status : SessionStatus
  startedAt : Option Nat
  completedAt : Option Nat
  overallScore : Option ℚ
  summary : Option String
  recommendations : Option (List String)
  skillBreakdown : Option (List SkillBreakdownEntry)
  categoryBreakdown : Option (List CategoryBreakdownEntry)
  performanceMetrics : Option PerformanceMetrics
deriving DecidableEq

/-- An Interview record (interview.entity.ts). -/
structure Interview where
  id : String
  userId : String
  skills : List String
  difficulty : String
  questionsPerSkill : Nat
  context : Option String
  questions : List Question
  totalQuestions : Nat
deriving DecidableEq

/-- The persistence boundary: the three TypeORM repositories plus a
fresh-id counter for created Answer rows. -/
structure Store where
  interviews : List Interview
  sessions : List Session
  answers : List Answer
  nextAnswerId : Nat
deriving DecidableEq

/-- One entry of the grader's `evaluations` array (also the shape of the
evaluations returned by `completeInterview`). -/
structure EvalEntry where
  questionIndex : Int
  score : ℚ
  feedback : String
  strengths : List String
  weaknesses : List String
deriving DecidableEq

/-- Parsed grader JSON, after the `Array.isArray(evaluations)` shape check
of `evaluateAnswers` (`overallScore := none` models an absent field). -/
structure GraderResponse where
  evaluations : List EvalEntry
  overallScore : Option ℚ
  summary : String
  recommendations : List String
deriving DecidableEq

/-- Return value of `evaluateAnswers` (`BatchEvaluationResult`); the
overall score is `none` when the JavaScript computation yields `NaN`. -/
structure BatchEvaluationResult where
  evaluations : List EvalEntry
  overallScore : Option ℚ
  summary : String
  recommendations : List String
deriving DecidableEq

/-- Return value of `completeInterview`. -/
structure CompleteResult where
  session : Session
  evaluations : List EvalEntry
  overallScore : Option ℚ
  summary : String
  recommendations : List String
deriving DecidableEq

/-- Projection of an Answer sent to the grader (`answerData` in
`completeInterview`). -/
structure AnswerData where
  questionIndex : Int
  questionText : String
  transcription : String
deriving DecidableEq

/-- One question object of the raw generator JSON
(`OpenAIQuestionResponse`): every field may be absent. -/
structure RawQuestion where
  skill : Option String
  question : Option String
  difficulty : Option String
  category : Option String
  expectedAnswer : Option String
deriving DecidableEq

/-- JavaScript `s || d` for an optional string: the default replaces both
an absent value and the empty string (both falsy). -/
def jsStrOr (o : Option String) (d : String) : String :=
  match o with
  | none => d
  | some s => if s = "" then d else s

/-- JavaScript truthiness of a possibly-absent number: `!x` holds for an
absent value and for `0`. -/
def jsNumFalsy (o : Option ℚ) : Bool :=
  match o with
  | none => true
  | some q => q = 0

/-- The mapping step of `parseQuestions`: apply the source's `||` defaults
to one raw question. -/
def fillDefaults (q : RawQuestion) : Question :=
  { skill := jsStrOr q.skill "Unknown"
    question := jsStrOr q.question ""
    difficulty := jsStrOr q.difficulty "intermediate"
    category := jsStrOr q.category "conceptual"
    expectedAnswer := q.expectedAnswer }

/-- JavaScript truthiness of the four required string fields, as in the
source's filter predicates. -/
def questionValid (q : Question) : Bool :=
  q.skill ≠ "" ∧ q.question ≠ "" ∧ q.difficulty ≠ "" ∧ q.category ≠ ""

/-- InterviewService.parseQuestions: reject a response without a
`questions` array, apply field defaults, and when any mapped question
still has a falsy required field return only the valid ones. -/
def parseQuestions (resp : Option (List RawQuestion)) :
    Except ApiError (List Question) :=
  match resp with
  | none => .error (.badRequest "Invalid response format from OpenAI")
  | some raws =>
    let questions := raws.map fillDefaults
    let invalidQuestions := questions.filter (fun q => ¬ questionValid q)
    if invalidQuestions.length > 0 then
      .ok (questions.filter questionValid)
    else
      .ok questions

/-- Score clamp of `evaluateAnswers`:
`Math.max(0, Math.min(10, evaluation.score))`. -/
def clampScore (raw : ℚ) : ℚ :=
  max 0 (min 10 raw)

/-- Post-processing `evaluateAnswers` applies to a successfully parsed
grader response: clamp every per-question score, then recompute the
overall score as the mean of the clamped scores when the supplied one is
falsy (absent or `0`); the mean of zero scores is JavaScript `0/0 = NaN`,
modelled as `none`. -/
def evaluateAnswersResult (resp : GraderResponse) : BatchEvaluationResult :=
  let clamped := resp.evaluations.map (fun e => { e with score := clampScore e.score })
  let overall : Option ℚ :=
    if jsNumFalsy resp.overallScore then
      let scores := clamped.map (fun e => e.score)
      if scores.length = 0 then none
      else some (scores.sum / (scores.length : ℚ))
    else resp.overallScore
  { evaluations := clamped
    overallScore := overall
    summary := resp.summary
    recommendations := resp.recommendations }

/-- EvaluationService.evaluateAnswers.  The external call and JSON parse
are the `grader` argument; its `.error` case carries the message that the
source's catch block rewraps into `Evaluation failed: ...`. -/
def evaluateAnswers (questions : List Question) (answers : List AnswerData)
    (grader : Except String GraderResponse) :
    Except ApiError BatchEvaluationResult :=
  if questions.length = 0 ∨ answers.length = 0 then
    .error (.badRequest "Questions and answers are required")
  else
    match grader with
    | .error msg => .error (.badRequest ("Evaluation failed: " ++ msg))
    | .ok resp => .ok (evaluateAnswersResult resp)

/-- Repository read `sessionRepository.findOne({where: {id}})`. -/
def findSessionById (st : Store) (sessionId : String) : Option Session :=
  st.sessions.find? (fun s => s.id = sessionId)

/-- Repository read `interviewRepository.findOne({where: {id}})`. -/
def findInterviewById (st : Store) (interviewId : String) : Option Interview :=
  st.interviews.find? (fun i => i.id = interviewId)

/-- Repository write `sessionRepository.save` of an existing session:
replace the record carrying the same primary key. -/
def saveSessionRecord (st : Store) (s : Session) : Store :=
  { st with sessions := st.sessions.map (fun t => if t.id = s.id then s else t) }

/-- Repository write `answerRepository.save` of an existing answer:
replace the record carrying the same primary key. -/
def saveAnswerRecord (st : Store) (a : Answer) : Store :=
  { st with answers := st.answers.map (fun b => if b.id = a.id then a else b) }

/-- Ordering relation of `order: {questionIndex: 'ASC'}`. -/
def byQuestionIndex (a b : Answer) : Prop :=
  a.questionIndex ≤ b.questionIndex

instance : DecidableRel byQuestionIndex :=
  fun a b => inferInstanceAs (Decidable (a.questionIndex ≤ b.questionIndex))

/-- Repository read `answerRepository.find({where: {sessionId},
order: {questionIndex: 'ASC'}})`. -/
def answersForSession (st : Store) (sessionId : String) : List Answer :=
  List.insertionSort byQuestionIndex (st.answers.filter (fun a => a.sessionId = sessionId))

/-- InterviewService.validateSessionOwnership: resolve the session by id
alone, then compare the stored owner with the caller; both failure modes
raise the same `NotFoundException('Interview session not found')`. -/
def validateSessionOwnership (st : Store) (sessionId userId : String) :
    Except ApiError Session :=
  match findSessionById st sessionId with
  | none => .error (.notFound "Interview session not found")
  | some session =>
    if session.userId = userId then .ok session
    else .error (.notFound "Interview session not found")

/-- InterviewService.startInterviewSession.  `newSessionId` stands for the
generated uuid, `now` for `new Date()`. -/
def startInterviewSession (st : Store) (userId interviewId : String)
    (newSessionId : String) (now : Nat) :
    Except ApiError (Session × Question) × Store :=
  match st.interviews.find? (fun i => i.id = interviewId ∧ i.userId = userId) with
  | none => (.error (.notFound "Interview not found"), st)
  | some interview =>
    match interview.questions with
    | [] => (.error (.badRequest "Interview has no questions"), st)
    | q :: _ =>
      (.ok (⟨newSessionId, interviewId, userId, 0, SessionStatus.inProgress,
          some now, none, none, none, none, none, none, none⟩, q),
       { st with sessions := st.sessions ++
          [⟨newSessionId, interviewId, userId, 0, SessionStatus.inProgress,
            some now, none, none, none, none, none, none, none⟩] })

/-- InterviewService.getCurrentQuestion (`none` is the `null` of the
source: the cursor is outside the question range). -/
def getCurrentQuestion (st : Store) (sessionId userId : String) :
    Except ApiError (Option Question) :=
  match validateSessionOwnership st sessionId userId with
  | .error e => .error e
  | .ok session =>
    match findInterviewById st session.interviewId with
    | none => .error (.notFound "Interview not found")
    | some interview =>
      if session.currentQuestionIndex < 0 ∨
          session.currentQuestionIndex ≥ (interview.questions.length : Int) then
        .ok none
      else
        .ok (interview.questions.get? session.currentQuestionIndex.toNat)

/-- InterviewService.submitAnswer: ownership, completed-state and range
checks, then the Answer Ledger upsert keyed on (sessionId, questionIndex). -/
def submitAnswer (st : Store) (sessionId : String) (questionIndex : Int)
    (transcription userId : String) (now : Nat) :
    Except ApiError Answer × Store :=
  match validateSessionOwnership st sessionId userId with
  | .error e => (.error e, st)
  | .ok session =>
    if session.status = SessionStatus.completed then
      (.error (.badRequest "Interview session is already completed"), st)
    else
      match findInterviewById st session.interviewId with
      | none => (.error (.notFound "Interview not found"), st)
      | some interview =>
        if h : questionIndex < 0 ∨ questionIndex ≥ (interview.questions.length : Int) then
          (.error (.badRequest "Invalid question index"), st)
        else
          match st.answers.find? (fun a => a.sessionId = sessionId ∧ a.questionIndex = questionIndex) with
          | some existingAnswer =>
            (.ok { existingAnswer with transcription := transcription, answeredAt := now },
             saveAnswerRecord st { existingAnswer with transcription := transcription, answeredAt := now })
          | none =>
            (.ok { id := st.nextAnswerId
                   sessionId := sessionId
                   questionIndex := questionIndex
                   questionText := (interview.questions.get ⟨questionIndex.toNat, by omega⟩).question
                   transcription := transcription
                   evaluation := none
                   answeredAt := now },
             { st with
                answers := st.answers ++
                  [{ id := st.nextAnswerId
                     sessionId := sessionId
                     questionIndex := questionIndex
                     questionText := (interview.questions.get ⟨questionIndex.toNat, by omega⟩).question
                     transcription := transcription
                     evaluation := none
                     answeredAt := now }]
                nextAnswerId := st.nextAnswerId + 1 })

/-- InterviewService.moveToNextQuestion: increment the cursor, persist the
session unconditionally, and return the question at the new cursor or
`none` once the cursor is outside the range. -/
def moveToNextQuestion (st : Store) (sessionId userId : String) :
    Except ApiError (Option Question) × Store :=
  match validateSessionOwnership st sessionId userId with
  | .error e => (.error e, st)
  | .ok session =>
    if session.status = SessionStatus.completed then
      (.error (.badRequest "Interview session is already completed"), st)
    else
      match findInterviewById st session.interviewId with
      | none => (.error (.notFound "Interview not found"), st)
      | some interview =>
        if session.currentQuestionIndex + 1 ≥ (interview.questions.length : Int) then
          (.ok none, saveSessionRecord st
            { session with currentQuestionIndex := session.currentQuestionIndex + 1 })
        else
          (.ok (interview.questions.get? (session.currentQuestionIndex + 1).toNat),
           saveSessionRecord st
            { session with currentQuestionIndex := session.currentQuestionIndex + 1 })

/-- Conversion of one grader evaluation entry into the blob stored on an
Answer record inside `completeInterview`'s write-back loop. -/
def mkAnswerEvaluation (e : EvalEntry) : AnswerEvaluation :=
  { score := e.score
    feedback := e.feedback
    strengths := e.strengths
    weaknesses := e.weaknesses }

/-- One iteration of `completeInterview`'s write-back loop: find the
answer with the evaluation's questionIndex in the loaded snapshot; when
found, save it with the evaluation set, otherwise do nothing. -/
def writeEvaluation (st : Store) (snapshot : List Answer) (e : EvalEntry) : Store :=
  match snapshot.find? (fun a => a.questionIndex = e.questionIndex) with
  | none => st
  | some a => saveAnswerRecord st { a with evaluation := some (mkAnswerEvaluation e) }

/-- The whole write-back loop of `completeInterview`. -/
def applyEvaluations (st : Store) (snapshot : List Answer) (evals : List EvalEntry) : Store :=
  evals.foldl (fun acc e => writeEvaluation acc snapshot e) st

/-- Evaluations replayed by `completeInterview`'s already-completed
short-circuit: the stored answers in index order, keeping those carrying
an evaluation, each spread into `{questionIndex, ...evaluation}`. -/
def shortEvals (st : Store) (sessionId : String) : List EvalEntry :=
  (answersForSession st sessionId).filterMap (fun a =>
    a.evaluation.map (fun ev =>
      EvalEntry.mk a.questionIndex ev.score ev.feedback ev.strengths ev.weaknesses))

/-- Overall score recomputed by the short-circuit: mean of the replayed
scores, `0` when there are none. -/
def shortOverall (st : Store) (sessionId : String) : ℚ :=
  let scores := (shortEvals st sessionId).map (fun e => e.score)
  if scores.length > 0 then scores.sum / (scores.length : ℚ) else 0

/-- Session update performed on the successful completion path: status
`COMPLETED` and `completedAt = now`; every other field is untouched. -/
def sesCompleted (session : Session) (now : Nat) : Session :=
  { session with
    status := SessionStatus.completed
    completedAt := some now }

/-- InterviewService.completeInterview.  The already-completed
short-circuit recomputes an overall score from the stored evaluations and
returns a constant summary; the main path loads the answers, requires at
least one, calls the grader once through `evaluateAnswers`, writes each
returned evaluation onto the answer with the matching questionIndex, and
saves the session as completed with `completedAt := now`. -/
def completeInterview (st : Store) (sessionId userId : String)
    (grader : Except String GraderResponse) (now : Nat) :
    Except ApiError CompleteResult × Store :=
  match validateSessionOwnership st sessionId userId with
  | .error e => (.error e, st)
  | .ok session =>
    if session.status = SessionStatus.completed then
      (.ok { session := session
             evaluations := shortEvals st sessionId
             overallScore := some (shortOverall st sessionId)
             summary := "Interview already completed"
             recommendations := [] }, st)
    else
      if (answersForSession st sessionId).length = 0 then
        (.error (.badRequest "No answers found to evaluate"), st)
      else
        match findInterviewById st session.interviewId with
        | none => (.error (.notFound "Interview not found"), st)
        | some interview =>
          match evaluateAnswers interview.questions
              ((answersForSession st sessionId).map (fun a =>
                AnswerData.mk a.questionIndex a.questionText a.transcription)) grader with
          | .error e => (.error e, st)
          | .ok result =>
            (.ok { session := sesCompleted session now
                   evaluations := result.evaluations
                   overallScore := result.overallScore
                   summary := result.summary
                   recommendations := result.recommendations },
             saveSessionRecord
               (applyEvaluations st (answersForSession st sessionId) result.evaluations)
               (sesCompleted session now))

/-- InterviewService.getSessionById is exactly the ownership check. -/
def getSessionById (st : Store) (sessionId userId : String) :
    Except ApiError Session :=
  validateSessionOwnership st sessionId userId

/-- InterviewService.getSessionAnswers: ownership check, then the ordered
answers of the session. -/
def getSessionAnswers (st : Store) (sessionId userId : String) :
    Except ApiError (List Answer) :=
  match validateSessionOwnership st sessionId userId with
  | .error e => .error e
  | .ok _ => .ok (answersForSession st sessionId)

/-- Ascending order on rational scores, used by the spec-side median. -/
def ratLe (a b : ℚ) : Prop := a ≤ b

instance : DecidableRel ratLe :=
  fun a b => inferInstanceAs (Decidable (a ≤ b))

/-- Modelled from the spec (comparison definition for §4.3, written from
the spec's words and not from the source, which contains no aggregator):
median of the clamped score list — sort ascending; even length takes the
mean of the two middle values, odd length the single middle value, the
empty list reports 0. -/
def specMedian (scores : List ℚ) : ℚ :=
  let sorted := List.insertionSort ratLe scores
  let n := sorted.length
  if n = 0 then 0
  else if n % 2 = 1 then sorted.getD (n / 2) 0
  else (sorted.getD (n / 2 - 1) 0 + sorted.getD (n / 2) 0) / 2

/-- Modelled from the spec (comparison definition for §4.3): the
performance metrics block `{min, max, median}` over the clamped score
list, all three fields 0 for an empty list. -/
def specPerformanceMetrics (scores : List ℚ) : PerformanceMetrics :=
  if scores.length = 0 then ⟨0, 0, 0⟩
  else
    ⟨(List.insertionSort ratLe scores).headD 0,
     (List.insertionSort ratLe scores).getLastD 0,
     specMedian scores⟩

/-! Concrete scenario shared by witnesses and counterexamples: one
interview with a single question, one in-progress session owned by `u1`,
one submitted, not yet evaluated answer. -/

/-- Concrete question of the scenario. -/
def q1 : Question :=
  ⟨"Go", "Explain goroutines", "intermediate", "conceptual", none⟩

/-- Concrete interview of the scenario. -/
def interview1 : Interview :=
  ⟨"i1", "u1", ["Go"], "intermediate", 1, none, [q1], 1⟩

/-- Concrete in-progress session of the scenario. -/
def ses1 : Session :=
  ⟨"s1", "i1", "u1", 0, SessionStatus.inProgress, some 1, none,
   none, none, none, none, none, none⟩

/-- Concrete stored answer of the scenario, not yet evaluated. -/
def ans1 : Answer :=
  ⟨0, "s1", 0, "Explain goroutines", "they are lightweight threads", none, 2⟩

/-- Concrete store of the scenario. -/
def st0 : Store :=
  ⟨[interview1], [ses1], [ans1], 1⟩

/-- Concrete grader response without an explicit overall score. -/
def graderOk : GraderResponse :=
  ⟨[⟨0, 8, "good depth", [], []⟩], none, "solid", ["practice more"]⟩

/-- Concrete grader response with an explicit overall score 9 that
differs from the per-question mean 5. -/
def graderExplicit : GraderResponse :=
  ⟨[⟨0, 5, "ok", [], []⟩], some 9, "generous overall", ["r1"]⟩

/-- Concrete scenario for the cursor-bound counterexample: the session
cursor already equals totalQuestions = 1. -/
def ses3 : Session :=
  ⟨"s3", "i3", "u3", 1, SessionStatus.inProgress, some 1, none,
   none, none, none, none, none, none⟩

/-- Interview of the cursor-bound scenario. -/
def interview3 : Interview :=
  ⟨"i3", "u3", ["Go"], "intermediate", 1, none, [q1], 1⟩

/-- Store of the cursor-bound scenario. -/
def st3 : Store :=
  ⟨[interview3], [ses3], [], 0⟩

/-- Well-formedness of the answers table: primary keys are unique, the
(sessionId, questionIndex) pairs are unique (the Answer Ledger invariant)
and every primary key is below the fresh-id counter. -/
def answersWf (st : Store) : Prop :=
  (st.answers.map (fun a => a.id)).Nodup ∧
  (st.answers.map (fun a => (a.sessionId, a.questionIndex))).Nodup ∧
  ∀ a ∈ st.answers, a.id < st.nextAnswerId

/-- Effect of the write-back loop of `completeInterview` on one stored
answer record, one evaluation at a time: the iteration for evaluation `e`
replaces the record whose primary key matches the snapshot answer found
for `e.questionIndex`. -/
def evalStep (snapshot : List Answer) (b : Answer) (e : EvalEntry) : Answer :=
  match snapshot.find? (fun a => a.questionIndex = e.questionIndex) with
  | none => b
  | some a => if b.id = a.id then { a with evaluation := some (mkAnswerEvaluation e) } else b

/-- Final value of a stored answer after the whole write-back loop, when
snapshot primary keys and question indices are unique: the record
receives the evaluation carrying its questionIndex when one exists and is
untouched otherwise. -/
def finalAnswer (evals : List EvalEntry) (a : Answer) : Answer :=
  match evals.find? (fun e => e.questionIndex = a.questionIndex) with
  | none => a
  | some e => { a with evaluation := some (mkAnswerEvaluation e) }

/-- Completed variant of the concrete scenario session. -/
def sesDone : Session :=
  { ses1 with status := SessionStatus.completed, completedAt := some 5 }

/-- Evaluated variant of the concrete scenario answer. -/
def ansDone : Answer :=
  { ans1 with evaluation := some ⟨8, "good depth", [], []⟩ }

/-- Concrete store holding an already-completed session with one
evaluated answer. -/
def stDone : Store :=
  ⟨[interview1], [sesDone], [ansDone], 1⟩

/-! Helper lemmas. -/

/-- Replacing the record with a given primary key never changes the list
of primary keys. -/
lemma map_id_replace (l : List Answer) (upd : Answer) :
    (l.map (fun b => if b.id = upd.id then upd else b)).map (fun a => a.id) =
      l.map (fun a => a.id) := by
  rw [List.map_map]
  apply List.map_congr_left
  intro b _
  by_cases h : b.id = upd.id <;> simp [Function.comp, h]

/-- Replacing a stored record by an update that keeps its primary key and
its (sessionId, questionIndex) key never changes the list of keys. -/
lemma map_key_replace (l : List Answer) (a0 upd : Answer)
    (hid : (l.map (fun a => a.id)).Nodup) (ha0 : a0 ∈ l)
    (hupd : upd.id = a0.id)
    (hkey : upd.sessionId = a0.sessionId ∧ upd.questionIndex = a0.questionIndex) :
    (l.map (fun b => if b.id = upd.id then upd else b)).map
        (fun a => (a.sessionId, a.questionIndex)) =
      l.map (fun a => (a.sessionId, a.questionIndex)) := by
  rw [List.map_map]
  apply List.map_congr_left
  intro b hb
  by_cases h : b.id = upd.id
  · have hb0 : b = a0 := List.inj_on_of_nodup_map hid hb ha0 (by rw [h, hupd])
    subst hb0
    simp [Function.comp, h, hkey.1, hkey.2]
  · simp [Function.comp, h]

/-- Successful ownership validation returns the stored session: it is the
one found by id, and its owner is the caller. -/
lemma validateSessionOwnership_ok (st : Store) (sid uid : String) (ses : Session)
    (h : validateSessionOwnership st sid uid = .ok ses) :
    findSessionById st sid = some ses ∧ ses.id = sid ∧ ses.userId = uid ∧
      ses ∈ st.sessions := by
  unfold validateSessionOwnership at h
  split at h
  · cases h
  · rename_i s hf
    split at h
    · rename_i hu
      cases h
      have hid : ses.id = sid := by simpa using List.find?_some hf
      exact ⟨hf, hid, hu, List.mem_of_find?_eq_some hf⟩
    · cases h

/-- Both ownership failure modes produce the same NotFound error. -/
lemma validateSessionOwnership_error (st : Store) (sid uid : String)
    (h : findSessionById st sid = none ∨
      ∃ s, findSessionById st sid = some s ∧ s.userId ≠ uid) :
    validateSessionOwnership st sid uid =
      .error (.notFound "Interview session not found") := by
  unfold validateSessionOwnership
  rcases h with h | ⟨s, hs, hne⟩
  · rw [h]
  · rw [hs]
    simp [hne]

/-- A string defaulted through `||` with a non-empty default is non-empty. -/
lemma jsStrOr_ne_empty (o : Option String) (d : String) (hd : d ≠ "") :
    jsStrOr o d ≠ "" := by
  unfold jsStrOr
  cases o with
  | none => exact hd
  | some s =>
    by_cases hs : s = "" <;> simp [hs, hd]

/-! Claim C4. -/

/-- C4 (confirmed): for every operation taking a sessionId, a missing
session and a wrong-owner session both fail first with the identical
NotFoundException('Interview session not found'), before any
state-dependent check, and never with an InvalidState/OutOfRange
(BadRequest) error. -/
theorem C4_ownership_uniform (st : Store) (sid uid : String)
    (h : findSessionById st sid = none ∨
      ∃ s, findSessionById st sid = some s ∧ s.userId ≠ uid) :
    getCurrentQuestion st sid uid = .error (.notFound "Interview session not found") ∧
    (∀ qi tr now, submitAnswer st sid qi tr uid now =
      (.error (.notFound "Interview session not found"), st)) ∧
    moveToNextQuestion st sid uid =
      (.error (.notFound "Interview session not found"), st) ∧
    (∀ g now, completeInterview st sid uid g now =
      (.error (.notFound "Interview session not found"), st)) ∧
    getSessionById st sid uid = .error (.notFound "Interview session not found") ∧
    getSessionAnswers st sid uid = .error (.notFound "Interview session not found") := by
  have hv := validateSessionOwnership_error st sid uid h
  refine ⟨?_, ?_, ?_, ?_, ?_, ?_⟩ <;>
    simp [getCurrentQuestion, submitAnswer, moveToNextQuestion, completeInterview,
      getSessionById, getSessionAnswers, hv]

/-- Witness for C4 at the concrete scenario: a missing session id and a
wrong caller against an existing session. -/
theorem C4_ownership_uniform_witness :
    getSessionById st0 "missing" "u1" = .error (.notFound "Interview session not found") ∧
    getSessionById st0 "s1" "intruder" = .error (.notFound "Interview session not found") := by
  constructor
  · exact (C4_ownership_uniform st0 "missing" "u1" (Or.inl (by decide))).2.2.2.2.1
  · exact (C4_ownership_uniform st0 "s1" "intruder"
      (Or.inr ⟨ses1, by decide, by decide⟩)).2.2.2.2.1

/-! Claim C9. -/

/-- C9 counterexample: a generator question with a missing `skill` field
is not filtered out — the claim says any question missing one of the four
required fields is dropped, but the source first repairs `skill`,
`difficulty` and `category` with non-empty defaults, so this question
survives with skill 'Unknown'. -/
theorem C9_counterexample :
    parseQuestions (some [⟨none, some "Explain goroutines", none, none, none⟩]) =
      .ok [⟨"Unknown", "Explain goroutines", "intermediate", "conceptual", none⟩] := by
  decide

/-- C9 (amended): `parseQuestions` repairs a missing/empty skill,
difficulty or category with the defaults 'Unknown'/'intermediate'/
'conceptual'; only questions whose question text is missing or empty are
filtered out; every question in the returned batch carries all four
required fields non-empty. -/
theorem C9_amended (raws : List RawQuestion) :
    parseQuestions (some raws) =
      .ok ((raws.map fillDefaults).filter (fun q => q.question ≠ "")) ∧
    ∀ q ∈ (raws.map fillDefaults).filter (fun q => q.question ≠ ""),
      q.skill ≠ "" ∧ q.question ≠ "" ∧ q.difficulty ≠ "" ∧ q.category ≠ "" := by
  have hfields : ∀ r : RawQuestion, (fillDefaults r).skill ≠ "" ∧
      (fillDefaults r).difficulty ≠ "" ∧ (fillDefaults r).category ≠ "" := by
    intro r
    refine ⟨?_, ?_, ?_⟩ <;>
      exact jsStrOr_ne_empty _ _ (by decide)
  have hcongr : (raws.map fillDefaults).filter questionValid =
      (raws.map fillDefaults).filter (fun q => q.question ≠ "") := by
    apply List.filter_congr
    intro q hq
    obtain ⟨r, _, rfl⟩ := List.mem_map.mp hq
    obtain ⟨h1, h2, h3⟩ := hfields r
    simp [questionValid, h1, h2, h3]
  constructor
  · unfold parseQuestions
    by_cases hinv :
        0 < ((raws.map fillDefaults).filter (fun q => ¬ questionValid q)).length
    · simp only [hinv, if_pos, gt_iff_lt]
      rw [hcongr]
    · simp only [gt_iff_lt, hinv, if_neg, not_false_eq_true]
      rw [← hcongr]
      have hall : ∀ q ∈ raws.map fillDefaults, questionValid q := by
        intro q hq
        by_contra hnq
        have hmem : q ∈ (raws.map fillDefaults).filter (fun q => ¬ questionValid q) := by
          simp only [List.mem_filter]
          exact ⟨hq, by simp [hnq]⟩
        have : 0 < ((raws.map fillDefaults).filter (fun q => ¬ questionValid q)).length :=
          List.length_pos.mpr (List.ne_nil_of_mem hmem)
        exact hinv this
      rw [List.filter_eq_self.mpr hall]
  · intro q hq
    have hq' := hq
    rw [← hcongr] at hq'
    obtain ⟨hmem, hval⟩ := List.mem_filter.mp hq'
    obtain ⟨r, _, rfl⟩ := List.mem_map.mp hmem
    obtain ⟨h1, h2, h3⟩ := hfields r
    refine ⟨h1, ?_, h2, h3⟩
    have := List.mem_filter.mp hq
    simpa using this.2

/-- Witness for C9 at a concrete batch: one question missing its text is
dropped, one complete question is kept with all fields non-empty. -/
theorem C9_amended_witness :
    parseQuestions (some [⟨some "Go", some "Explain goroutines", some "advanced", some "conceptual", none⟩,
        ⟨some "Go", none, some "advanced", some "conceptual", none⟩]) =
      .ok [⟨"Go", "Explain goroutines", "advanced", "conceptual", none⟩] ∧
    ("Go" : String) ≠ "" := by
  have h := C9_amended [⟨some "Go", some "Explain goroutines", some "advanced", some "conceptual", none⟩,
    ⟨some "Go", none, some "advanced", some "conceptual", none⟩]
  constructor
  · rw [h.1]
    decide
  · exact (h.2 ⟨"Go", "Explain goroutines", "advanced", "conceptual", none⟩ (by decide)).1

/-! Claim C7. -/

/-- C7 counterexample: the grader supplies the explicit overall score 0
with an empty evaluations list; the claim requires the returned overall
score to be 0 (both by 'use the grader's explicit score' and by the
zero-scored-answers clause), but the source's falsy check discards the
supplied 0 and recomputes 0/0, which is JavaScript NaN (modelled `none`),
not 0. -/
theorem C7_counterexample :
    evaluateAnswers [q1] [⟨0, "Explain goroutines", "short answer"⟩]
        (.ok ⟨[], some 0, "empty round", []⟩) =
      .ok ⟨[], none, "empty round", []⟩ ∧
    (none : Option ℚ) ≠ some 0 := by
  constructor
  · decide
  · decide

/-- C7 (amended): when the grader-supplied overall score is truthy
(present and non-zero) it is returned unchanged; when it is falsy (absent
or exactly 0) the overall score is recomputed as the mean of the clamped
per-question scores, and with zero scored answers that recomputation is
NaN (`none`), not 0. -/
theorem C7_amended (questions : List Question) (answers : List AnswerData)
    (resp : GraderResponse) (hq : questions ≠ []) (ha : answers ≠ []) :
    (jsNumFalsy resp.overallScore = true →
      evaluateAnswers questions answers (.ok resp) =
        .ok { evaluations := resp.evaluations.map (fun e => { e with score := clampScore e.score })
              overallScore :=
                if resp.evaluations.length = 0 then none
                else some ((resp.evaluations.map (fun e => clampScore e.score)).sum /
                  (resp.evaluations.length : ℚ))
              summary := resp.summary
              recommendations := resp.recommendations }) ∧
    (jsNumFalsy resp.overallScore = false →
      evaluateAnswers questions answers (.ok resp) =
        .ok { evaluations := resp.evaluations.map (fun e => { e with score := clampScore e.score })
              overallScore := resp.overallScore
              summary := resp.summary
              recommendations := resp.recommendations }) := by
  have hq' : questions.length ≠ 0 := by simpa [List.length_eq_zero] using hq
  have ha' : answers.length ≠ 0 := by simpa [List.length_eq_zero] using ha
  have hcomp : (resp.evaluations.map
        (fun e => ({ e with score := clampScore e.score } : EvalEntry))).map (fun e => e.score) =
      resp.evaluations.map (fun e => clampScore e.score) := by
    rw [List.map_map]
    rfl
  constructor
  · intro hf
    simp only [evaluateAnswers, hq', ha', or_self, if_false, evaluateAnswersResult, hf,
      if_true, hcomp, List.length_map]
  · intro hf
    simp only [evaluateAnswers, hq', ha', or_self, if_false, evaluateAnswersResult, hf,
      Bool.false_eq_true, if_false]

/-- Witness for C7 at concrete inputs: explicit non-zero overall 9 is
kept even though the per-question mean is 5. -/
theorem C7_amended_witness :
    evaluateAnswers [q1] [⟨0, "Explain goroutines", "short answer"⟩] (.ok graderExplicit) =
      .ok { evaluations := [⟨0, 5, "ok", [], []⟩]
            overallScore := some 9
            summary := "generous overall"
            recommendations := ["r1"] } := by
  have h := (C7_amended [q1] [⟨0, "Explain goroutines", "short answer"⟩]
    graderExplicit (by decide) (by decide)).2 (by decide)
  rw [h]
  decide

/-! Claim C8. -/

/-- C8 (confirmed): every evaluation entry in the result of the grading
post-processing has its raw score clamped through
`max(0, min(10, rawScore))`, hence lies in `[0, 10]`; the result's
evaluations list (the list that is aggregated into the mean and written
back onto Answer records) consists exactly of these clamped entries. -/
theorem C8_scores_clamped (resp : GraderResponse) (e : EvalEntry)
    (he : e ∈ (evaluateAnswersResult resp).evaluations) :
    0 ≤ e.score ∧ e.score ≤ 10 ∧
    ∃ raw ∈ resp.evaluations, e = { raw with score := max 0 (min 10 raw.score) } := by
  simp only [evaluateAnswersResult, List.mem_map] at he
  obtain ⟨raw, hraw, rfl⟩ := he
  refine ⟨le_max_left 0 _, ?_, raw, hraw, rfl⟩
  simp only [clampScore]
  exact max_le (by norm_num) (min_le_left 10 raw.score)

/-- Witness for C8: the raw score 12 is clamped to 10. -/
theorem C8_scores_clamped_witness :
    (0:ℚ) ≤ 10 ∧ (10:ℚ) ≤ 10 ∧
    ∃ raw ∈ ([⟨0, 12, "good", [], []⟩] : List EvalEntry),
      (⟨0, 10, "good", [], []⟩ : EvalEntry) = { raw with score := max 0 (min 10 raw.score) } := by
  exact C8_scores_clamped ⟨[⟨0, 12, "good", [], []⟩], none, "", []⟩
    ⟨0, 10, "good", [], []⟩ (by decide)

/-! Machinery for the Answer Ledger upsert (claim C5). -/

/-- On the success path with an existing answer for (sessionId,
questionIndex), `submitAnswer` saves an in-place update of that record. -/
lemma submitAnswer_eq_update (st : Store) (sid : String) (qi : Int) (tr uid : String)
    (now : Nat) (ses : Session) (itv : Interview) (a0 : Answer)
    (hval : validateSessionOwnership st sid uid = .ok ses)
    (hst : ¬ ses.status = SessionStatus.completed)
    (hitv : findInterviewById st ses.interviewId = some itv)
    (hrange : ¬(qi < 0 ∨ qi ≥ (itv.questions.length : Int)))
    (hfind : st.answers.find? (fun a => a.sessionId = sid ∧ a.questionIndex = qi) = some a0) :
    submitAnswer st sid qi tr uid now =
      (.ok { a0 with transcription := tr, answeredAt := now },
       saveAnswerRecord st { a0 with transcription := tr, answeredAt := now }) := by
  unfold submitAnswer
  split
  · rename_i e heq
    rw [hval] at heq; cases heq
  · rename_i s heq
    rw [hval] at heq
    cases heq
    rw [if_neg hst]
    split
    · rename_i heq2
      rw [hitv] at heq2; cases heq2
    · rename_i itv2 heq2
      rw [hitv] at heq2
      cases heq2
      rw [dif_neg hrange]
      split
      · rename_i a0' heq3
        rw [hfind] at heq3
        cases heq3
        rfl
      · rename_i heq3
        rw [hfind] at heq3; cases heq3

/-- On the success path with no existing answer, `submitAnswer` appends a
fresh record with `evaluation = null`. -/
lemma submitAnswer_eq_insert (st : Store) (sid : String) (qi : Int) (tr uid : String)
    (now : Nat) (ses : Session) (itv : Interview)
    (hval : validateSessionOwnership st sid uid = .ok ses)
    (hst : ¬ ses.status = SessionStatus.completed)
    (hitv : findInterviewById st ses.interviewId = some itv)
    (hrange : ¬(qi < 0 ∨ qi ≥ (itv.questions.length : Int)))
    (hfind : st.answers.find? (fun a => a.sessionId = sid ∧ a.questionIndex = qi) = none) :
    submitAnswer st sid qi tr uid now =
      (.ok { id := st.nextAnswerId
             sessionId := sid
             questionIndex := qi
             questionText := (itv.questions.get ⟨qi.toNat, by omega⟩).question
             transcription := tr
             evaluation := none
             answeredAt := now },
       { st with
          answers := st.answers ++
            [{ id := st.nextAnswerId
               sessionId := sid
               questionIndex := qi
               questionText := (itv.questions.get ⟨qi.toNat, by omega⟩).question
               transcription := tr
               evaluation := none
               answeredAt := now }]
          nextAnswerId := st.nextAnswerId + 1 }) := by
  unfold submitAnswer
  split
  · rename_i e heq
    rw [hval] at heq; cases heq
  · rename_i s heq
    rw [hval] at heq
    cases heq
    rw [if_neg hst]
    split
    · rename_i heq2
      rw [hitv] at heq2; cases heq2
    · rename_i itv2 heq2
      rw [hitv] at heq2
      cases heq2
      rw [dif_neg hrange]
      split
      · rename_i a0' heq3
        rw [hfind] at heq3; cases heq3
      · rfl

/-- Whatever the outcome, `submitAnswer` never touches the sessions
table. -/
lemma submitAnswer_sessions (st : Store) (sid : String) (qi : Int) (tr uid : String)
    (now : Nat) :
    (submitAnswer st sid qi tr uid now).2.sessions = st.sessions := by
  unfold submitAnswer
  split
  · rfl
  · split
    · rfl
    · split
      · rfl
      · split
        · rfl
        · split <;> rfl

/-- Under the ledger invariant, the per-session answer count equals the
number of distinct question indices answered. -/
lemma count_distinct_of_wf (st : Store) (hwf : answersWf st) (sid : String) :
    ((st.answers.filter (fun a => a.sessionId = sid)).map (fun a => a.questionIndex)).Nodup ∧
    (st.answers.filter (fun a => a.sessionId = sid)).length =
      ((st.answers.filter (fun a => a.sessionId = sid)).map
        (fun a => a.questionIndex)).toFinset.card := by
  obtain ⟨-, hkeys, -⟩ := hwf
  have hsub : ((st.answers.filter (fun a => a.sessionId = sid)).map
      (fun a => (a.sessionId, a.questionIndex))).Nodup :=
    List.Nodup.sublist (List.Sublist.map _ (List.filter_sublist _)) hkeys
  have hpair : (st.answers.filter (fun a => a.sessionId = sid)).Pairwise
      (fun a b => (a.sessionId, a.questionIndex) ≠ (b.sessionId, b.questionIndex)) :=
    List.pairwise_map.mp hsub
  have hidx : ((st.answers.filter (fun a => a.sessionId = sid)).map
      (fun a => a.questionIndex)).Nodup := by
    refine List.pairwise_map.mpr (hpair.imp_of_mem ?_)
    intro a b ha hb hne hq
    apply hne
    have hsa : a.sessionId = sid := by simpa using (List.mem_filter.mp ha).2
    have hsb : b.sessionId = sid := by simpa using (List.mem_filter.mp hb).2
    rw [Prod.mk.injEq]
    exact ⟨by rw [hsa, hsb], hq⟩
  refine ⟨hidx, ?_⟩
  rw [List.toFinset_card_of_nodup hidx, List.length_map]

/-- The in-place update of `submitAnswer` preserves the ledger
invariant. -/
lemma answersWf_update (st : Store) (a0 upd : Answer) (hwf : answersWf st)
    (ha0 : a0 ∈ st.answers) (hid : upd.id = a0.id)
    (hsid : upd.sessionId = a0.sessionId) (hqi : upd.questionIndex = a0.questionIndex) :
    answersWf (saveAnswerRecord st upd) := by
  obtain ⟨hids, hkeys, hbound⟩ := hwf
  refine ⟨?_, ?_, ?_⟩
  · have := map_id_replace st.answers upd
    simpa [saveAnswerRecord, this] using hids
  · have := map_key_replace st.answers a0 upd hids ha0 hid ⟨hsid, hqi⟩
    simpa [saveAnswerRecord, this] using hkeys
  · intro b hb
    simp only [saveAnswerRecord, List.mem_map] at hb
    obtain ⟨c, hc, rfl⟩ := hb
    by_cases h : c.id = upd.id
    · simp only [h, if_true]
      rw [hid]
      exact hbound a0 ha0
    · simp only [h, if_false]
      exact hbound c hc

/-- The insert branch of `submitAnswer` preserves the ledger invariant. -/
lemma answersWf_insert (st : Store) (sid : String) (qi : Int) (newA : Answer)
    (hwf : answersWf st)
    (hid : newA.id = st.nextAnswerId) (hsid : newA.sessionId = sid)
    (hqi : newA.questionIndex = qi)
    (hfind : st.answers.find? (fun a => a.sessionId = sid ∧ a.questionIndex = qi) = none) :
    answersWf { st with answers := st.answers ++ [newA], nextAnswerId := st.nextAnswerId + 1 } := by
  obtain ⟨hids, hkeys, hbound⟩ := hwf
  have hnotin : ∀ a ∈ st.answers, ¬ (a.sessionId = sid ∧ a.questionIndex = qi) := by
    intro a ha
    have := List.find?_eq_none.mp hfind a ha
    simpa using this
  refine ⟨?_, ?_, ?_⟩
  · simp only [List.map_append, List.map_cons, List.map_nil]
    rw [List.nodup_append]
    refine ⟨hids, List.nodup_singleton _, ?_⟩
    intro i hi hii
    simp only [List.mem_singleton] at hii
    obtain ⟨a, ha, rfl⟩ := List.mem_map.mp hi
    have h2 : a.id = st.nextAnswerId := hii.trans hid
    have h3 := hbound a ha
    omega
  · simp only [List.map_append, List.map_cons, List.map_nil]
    rw [List.nodup_append]
    refine ⟨hkeys, List.nodup_singleton _, ?_⟩
    intro k hk hkk
    simp only [List.mem_singleton] at hkk
    obtain ⟨a, ha, rfl⟩ := List.mem_map.mp hk
    apply hnotin a ha
    rw [Prod.mk.injEq] at hkk
    exact ⟨hkk.1.trans hsid, hkk.2.trans hqi⟩
  · intro b hb
    rcases List.mem_append.mp hb with hb | hb
    · exact Nat.lt_succ_of_lt (hbound b hb)
    · simp only [List.mem_singleton] at hb
      rw [hb, hid]
      exact Nat.lt_succ_self _

/-! Claim C5. -/

/-- C5 (confirmed): on the in-range success path, a second submission for
an existing (sessionId, questionIndex) updates that record's
transcription and answeredAt in place and the answer count stays fixed; a
first submission inserts exactly one new record with evaluation null; the
ledger invariant is preserved, so the per-session count always equals the
number of distinct indices answered. -/
theorem C5_answer_ledger_upsert (st : Store) (sid : String) (qi : Int) (tr uid : String)
    (now : Nat) (ses : Session) (itv : Interview)
    (hval : validateSessionOwnership st sid uid = .ok ses)
    (hst : ¬ ses.status = SessionStatus.completed)
    (hitv : findInterviewById st ses.interviewId = some itv)
    (hrange : ¬(qi < 0 ∨ qi ≥ (itv.questions.length : Int))) :
    (∀ a0, st.answers.find? (fun a => a.sessionId = sid ∧ a.questionIndex = qi) = some a0 →
      submitAnswer st sid qi tr uid now =
        (.ok { a0 with transcription := tr, answeredAt := now },
         saveAnswerRecord st { a0 with transcription := tr, answeredAt := now }) ∧
      (submitAnswer st sid qi tr uid now).2.answers.length = st.answers.length) ∧
    (st.answers.find? (fun a => a.sessionId = sid ∧ a.questionIndex = qi) = none →
      ∃ newA : Answer, newA.evaluation = none ∧ newA.sessionId = sid ∧
        newA.questionIndex = qi ∧ newA.transcription = tr ∧
        submitAnswer st sid qi tr uid now =
          (.ok newA,
           { st with
              answers := st.answers ++ [newA]
              nextAnswerId := st.nextAnswerId + 1 })) ∧
    (answersWf st → answersWf (submitAnswer st sid qi tr uid now).2 ∧
      ((submitAnswer st sid qi tr uid now).2.answers.filter
          (fun a => a.sessionId = sid)).length =
        (((submitAnswer st sid qi tr uid now).2.answers.filter
          (fun a => a.sessionId = sid)).map (fun a => a.questionIndex)).toFinset.card) := by
  refine ⟨?_, ?_, ?_⟩
  · intro a0 hfind
    have heq := submitAnswer_eq_update st sid qi tr uid now ses itv a0
      hval hst hitv hrange hfind
    refine ⟨heq, ?_⟩
    rw [heq]
    simp only [saveAnswerRecord]
    exact List.length_map _ _
  · intro hfind
    refine ⟨_, rfl, rfl, rfl, rfl,
      submitAnswer_eq_insert st sid qi tr uid now ses itv hval hst hitv hrange hfind⟩
  · intro hwf
    have hwf2 : answersWf (submitAnswer st sid qi tr uid now).2 := by
      cases hfind : st.answers.find? (fun a => a.sessionId = sid ∧ a.questionIndex = qi) with
      | some a0 =>
        rw [submitAnswer_eq_update st sid qi tr uid now ses itv a0 hval hst hitv hrange hfind]
        have ha0 : a0 ∈ st.answers := List.mem_of_find?_eq_some hfind
        exact answersWf_update st a0 _ hwf ha0 rfl rfl rfl
      | none =>
        rw [submitAnswer_eq_insert st sid qi tr uid now ses itv hval hst hitv hrange hfind]
        exact answersWf_insert st sid qi _ hwf rfl rfl rfl hfind
    exact ⟨hwf2, (count_distinct_of_wf _ hwf2 sid).2⟩

/-- Witness for C5: re-submitting the already-answered index 0 updates
the stored record in place. -/
theorem C5_answer_ledger_upsert_witness :
    submitAnswer st0 "s1" 0 "second take" "u1" 7 =
      (.ok { ans1 with transcription := "second take", answeredAt := 7 },
       saveAnswerRecord st0 { ans1 with transcription := "second take", answeredAt := 7 }) := by
  exact ((C5_answer_ledger_upsert st0 "s1" 0 "second take" "u1" 7 ses1 interview1
    (by decide) (by decide) (by decide) (by decide)).1 ans1 (by decide)).1

/-! Machinery for the cursor claims (claim C3). -/

/-- Answer write-back never touches the sessions table. -/
lemma writeEvaluation_sessions (st : Store) (snap : List Answer) (e : EvalEntry) :
    (writeEvaluation st snap e).sessions = st.sessions := by
  unfold writeEvaluation
  split <;> rfl

/-- The whole write-back loop never touches the sessions table. -/
lemma applyEvaluations_sessions (evals : List EvalEntry) (st : Store) (snap : List Answer) :
    (applyEvaluations st snap evals).sessions = st.sessions := by
  induction evals generalizing st with
  | nil => rfl
  | cons e rest ih =>
    unfold applyEvaluations at ih ⊢
    simp only [List.foldl_cons]
    rw [ih, writeEvaluation_sessions]

/-- On the success path, `moveToNextQuestion` increments the cursor by
exactly one, persists the session, and returns null exactly when the new
cursor is at or past the question count. -/
lemma moveToNextQuestion_eq (st : Store) (sid uid : String) (ses : Session)
    (itv : Interview)
    (hval : validateSessionOwnership st sid uid = .ok ses)
    (hst : ¬ ses.status = SessionStatus.completed)
    (hitv : findInterviewById st ses.interviewId = some itv) :
    moveToNextQuestion st sid uid =
      ((if ses.currentQuestionIndex + 1 ≥ (itv.questions.length : Int) then .ok none
        else .ok (itv.questions.get? (ses.currentQuestionIndex + 1).toNat)),
       saveSessionRecord st { ses with currentQuestionIndex := ses.currentQuestionIndex + 1 }) := by
  unfold moveToNextQuestion
  split
  · rename_i e heq
    rw [hval] at heq; cases heq
  · rename_i s heq
    rw [hval] at heq
    cases heq
    rw [if_neg hst]
    split
    · rename_i heq2
      rw [hitv] at heq2; cases heq2
    · rename_i itv2 heq2
      rw [hitv] at heq2
      cases heq2
      by_cases hge : ses.currentQuestionIndex + 1 ≥ (itv.questions.length : Int)
      · rw [if_pos hge, if_pos hge]
      · rw [if_neg hge, if_neg hge]

/-- Whatever the path taken, `completeInterview` leaves every session's
cursor unchanged (it only flips status/completedAt of the target
session). -/
lemma completeInterview_idx_map (st : Store) (sid uid : String)
    (g : Except String GraderResponse) (now : Nat)
    (hsid : (st.sessions.map (fun s => s.id)).Nodup) :
    ((completeInterview st sid uid g now).2.sessions.map (fun s => s.currentQuestionIndex)) =
      st.sessions.map (fun s => s.currentQuestionIndex) := by
  unfold completeInterview
  split
  · rfl
  · rename_i ses heq
    split
    · rfl
    · split
      · rfl
      · split
        · rfl
        · rename_i itv heq2
          split
          · rfl
          · rename_i result heq3
            have hses := validateSessionOwnership_ok st sid uid ses heq
            simp only [saveSessionRecord, applyEvaluations_sessions]
            rw [List.map_map]
            apply List.map_congr_left
            intro t ht
            by_cases hid : t.id = (sesCompleted ses now).id
            · have ht0 : t = ses :=
                List.inj_on_of_nodup_map hsid ht hses.2.2.2 (by simpa [sesCompleted] using hid)
              subst ht0
              simp only [Function.comp]
              rw [if_pos hid]
              rfl
            · simp only [Function.comp]
              rw [if_neg hid]

/-! Claim C3. -/

/-- C3 counterexample: with the cursor already at totalQuestions = 1, a
further `moveToNextQuestion` persists cursor 2 > totalQuestions, so the
invariant `currentQuestionIndex ≤ totalQuestions` does not hold after
every operation. -/
theorem C3_counterexample :
    (moveToNextQuestion st3 "s3" "u3").2.sessions =
      [{ ses3 with currentQuestionIndex := 2 }] ∧
    (moveToNextQuestion st3 "s3" "u3").1 = .ok none ∧
    interview3.totalQuestions = 1 ∧ ¬ ((2:Int) ≤ (interview3.totalQuestions : Int)) := by
  refine ⟨by decide, by decide, by decide, by decide⟩

/-- C3 (amended): `0 ≤ currentQuestionIndex` and cursor preservation hold
of every operation — start creates the session at cursor 0, submitAnswer
and completeInterview never change any cursor — and `moveToNextQuestion`
increments the cursor by exactly 1, persists it and returns null when the
new cursor reaches (or exceeds) the question count; consequently
`currentQuestionIndex ≤ totalQuestions` is preserved by
`moveToNextQuestion` only from states with
`currentQuestionIndex < totalQuestions`, and a call on a session already
at the bound persists a cursor strictly beyond it. -/
theorem C3_cursor_behavior (st : Store) (sid uid : String) :
    (∀ iid nsid now res st2, startInterviewSession st uid iid nsid now = (.ok res, st2) →
      res.1.currentQuestionIndex = 0 ∧ st2.sessions = st.sessions ++ [res.1]) ∧
    (∀ qi tr now, (submitAnswer st sid qi tr uid now).2.sessions = st.sessions) ∧
    ((st.sessions.map (fun s => s.id)).Nodup → ∀ g now,
      ((completeInterview st sid uid g now).2.sessions.map (fun s => s.currentQuestionIndex)) =
        st.sessions.map (fun s => s.currentQuestionIndex)) ∧
    (∀ ses itv, validateSessionOwnership st sid uid = .ok ses →
      ¬ ses.status = SessionStatus.completed →
      findInterviewById st ses.interviewId = some itv →
      moveToNextQuestion st sid uid =
        ((if ses.currentQuestionIndex + 1 ≥ (itv.questions.length : Int) then .ok none
          else .ok (itv.questions.get? (ses.currentQuestionIndex + 1).toNat)),
         saveSessionRecord st { ses with currentQuestionIndex := ses.currentQuestionIndex + 1 }) ∧
      (0 ≤ ses.currentQuestionIndex →
        (ses.currentQuestionIndex + 1 ≤ (itv.questions.length : Int) ↔
          ses.currentQuestionIndex < (itv.questions.length : Int)))) := by
  refine ⟨?_, ?_, ?_, ?_⟩
  · intro iid nsid now res st2 h
    unfold startInterviewSession at h
    split at h
    · rw [Prod.mk.injEq] at h
      cases h.1
    · rename_i itv heq
      split at h
      · rw [Prod.mk.injEq] at h
        cases h.1
      · rename_i q rest heq2
        rw [Prod.mk.injEq] at h
        obtain ⟨h1, h2⟩ := h
        cases h1
        cases h2
        exact ⟨rfl, rfl⟩
  · intro qi tr now
    exact submitAnswer_sessions st sid qi tr uid now
  · intro hsid g now
    exact completeInterview_idx_map st sid uid g now hsid
  · intro ses itv hval hst hitv
    refine ⟨moveToNextQuestion_eq st sid uid ses itv hval hst hitv, ?_⟩
    intro _
    omega

/-- Witness for C3 at the concrete scenario: advancing from cursor 0 of a
one-question interview persists cursor 1 and signals exhaustion. -/
theorem C3_cursor_behavior_witness :
    moveToNextQuestion st0 "s1" "u1" =
      (.ok none, saveSessionRecord st0 { ses1 with currentQuestionIndex := 1 }) ∧
    (0 ≤ ses1.currentQuestionIndex →
      (ses1.currentQuestionIndex + 1 ≤ (interview1.questions.length : Int) ↔
        ses1.currentQuestionIndex < (interview1.questions.length : Int))) := by
  have h := (C3_cursor_behavior st0 "s1" "u1").2.2.2 ses1 interview1
    (by decide) (by decide) (by decide)
  constructor
  · rw [h.1]
    decide
  · exact h.2

/-! Machinery for the completion claims (C1, C2, C6, C10). -/

/-- With a non-empty question list and a non-empty answer batch, a
successful grader call yields the post-processed result. -/
lemma evaluateAnswers_ok (qs : List Question) (ans : List AnswerData)
    (resp : GraderResponse) (hq : qs.length ≠ 0) (ha : ans.length ≠ 0) :
    evaluateAnswers qs ans (.ok resp) = .ok (evaluateAnswersResult resp) := by
  unfold evaluateAnswers
  rw [if_neg (by simp [hq, ha])]

/-- With a non-empty question list and a non-empty answer batch, a failed
grader call is rewrapped as the source's catch block does. -/
lemma evaluateAnswers_err (qs : List Question) (ans : List AnswerData)
    (msg : String) (hq : qs.length ≠ 0) (ha : ans.length ≠ 0) :
    evaluateAnswers qs ans (.error msg) =
      .error (.badRequest ("Evaluation failed: " ++ msg)) := by
  unfold evaluateAnswers
  rw [if_neg (by simp [hq, ha])]

/-- The already-completed short-circuit of `completeInterview`: for any
grader argument, the result replays the stored evaluations, recomputes
the mean, reports the constant summary with no recommendations, and
leaves the store untouched. -/
lemma completeInterview_shortCircuit (st : Store) (sid uid : String)
    (g : Except String GraderResponse) (now : Nat) (ses : Session)
    (hval : validateSessionOwnership st sid uid = .ok ses)
    (hc : ses.status = SessionStatus.completed) :
    completeInterview st sid uid g now =
      (.ok { session := ses
             evaluations := shortEvals st sid
             overallScore := some (shortOverall st sid)
             summary := "Interview already completed"
             recommendations := [] }, st) := by
  unfold completeInterview
  split
  · rename_i e heq; rw [hval] at heq; cases heq
  · rename_i s heq
    rw [hval] at heq; cases heq
    rw [if_pos hc]

/-- The successful completion path of `completeInterview` in closed form:
the write-back loop runs on the loaded snapshot and the session is saved
as completed. -/
lemma completeInterview_success_char (st : Store) (sid uid : String)
    (resp : GraderResponse) (now : Nat) (ses : Session) (itv : Interview)
    (hval : validateSessionOwnership st sid uid = .ok ses)
    (hst : ¬ ses.status = SessionStatus.completed)
    (hne : answersForSession st sid ≠ [])
    (hitv : findInterviewById st ses.interviewId = some itv)
    (hq : itv.questions ≠ []) :
    completeInterview st sid uid (.ok resp) now =
      (.ok { session := sesCompleted ses now
             evaluations := (evaluateAnswersResult resp).evaluations
             overallScore := (evaluateAnswersResult resp).overallScore
             summary := resp.summary
             recommendations := resp.recommendations },
       saveSessionRecord
         (applyEvaluations st (answersForSession st sid)
           (evaluateAnswersResult resp).evaluations)
         (sesCompleted ses now)) := by
  unfold completeInterview
  split
  · rename_i e heq; rw [hval] at heq; cases heq
  · rename_i s heq
    rw [hval] at heq; cases heq
    rw [if_neg hst]
    rw [if_neg (by simpa [List.length_eq_zero] using hne)]
    split
    · rename_i heq2; rw [hitv] at heq2; cases heq2
    · rename_i itv2 heq2
      rw [hitv] at heq2; cases heq2
      have hok := evaluateAnswers_ok itv.questions
        ((answersForSession st sid).map (fun a =>
          AnswerData.mk a.questionIndex a.questionText a.transcription)) resp
        (by simpa [List.length_eq_zero] using hq)
        (by simp only [List.length_map]; simpa [List.length_eq_zero] using hne)
      split
      · rename_i e heq3
        rw [hok] at heq3; cases heq3
      · rename_i result heq3
        rw [hok] at heq3
        cases heq3
        rfl

/-- Membership in the ordered per-session answer load. -/
lemma mem_answersForSession (st : Store) (sid : String) (a : Answer) :
    a ∈ answersForSession st sid ↔ a ∈ st.answers ∧ a.sessionId = sid := by
  unfold answersForSession
  rw [(List.perm_insertionSort byQuestionIndex _).mem_iff]
  simp [List.mem_filter]

/-- The ordered per-session load is a permutation of the raw filter. -/
lemma answersForSession_perm (st : Store) (sid : String) :
    (answersForSession st sid).Perm (st.answers.filter (fun a => a.sessionId = sid)) :=
  List.perm_insertionSort byQuestionIndex _

/-- Unique primary keys survive into the per-session snapshot. -/
lemma answersForSession_ids_nodup (st : Store) (sid : String)
    (h : (st.answers.map (fun a => a.id)).Nodup) :
    ((answersForSession st sid).map (fun a => a.id)).Nodup := by
  refine ((answersForSession_perm st sid).map (fun a => a.id)).nodup_iff.mpr ?_
  exact List.Nodup.sublist (List.Sublist.map _ (List.filter_sublist _)) h

/-- Under the ledger invariant, the per-session snapshot has pairwise
distinct question indices. -/
lemma answersForSession_idx_nodup (st : Store) (sid : String) (hwf : answersWf st) :
    ((answersForSession st sid).map (fun a => a.questionIndex)).Nodup := by
  refine ((answersForSession_perm st sid).map (fun a => a.questionIndex)).nodup_iff.mpr ?_
  exact (count_distinct_of_wf st hwf sid).1

/-- First-match search by question index returns the unique carrier when
indices are pairwise distinct. -/
lemma find?_answer_idx_self (snap : List Answer) (a0 : Answer) (i : Int)
    (ha0 : a0 ∈ snap)
    (hidx : (snap.map (fun a => a.questionIndex)).Nodup)
    (hi : a0.questionIndex = i) :
    snap.find? (fun a => a.questionIndex = i) = some a0 := by
  induction snap with
  | nil => cases ha0
  | cons a t ih =>
    simp only [List.map_cons, List.nodup_cons] at hidx
    rcases List.mem_cons.mp ha0 with rfl | hat
    · exact List.find?_cons_of_pos t (by simpa using hi)
    · by_cases hfa : a.questionIndex = i
      · exfalso
        apply hidx.1
        rw [hfa, ← hi]
        exact List.mem_map_of_mem _ hat
      · rw [List.find?_cons_of_neg t (by simpa using hfa)]
        exact ih hat hidx.2

/-- First-match search among the evaluations by question index returns
the unique carrier when indices are pairwise distinct. -/
lemma find?_eval_idx_self (evals : List EvalEntry) (e0 : EvalEntry) (i : Int)
    (he0 : e0 ∈ evals)
    (hidx : (evals.map (fun e => e.questionIndex)).Nodup)
    (hi : e0.questionIndex = i) :
    evals.find? (fun e => e.questionIndex = i) = some e0 := by
  induction evals with
  | nil => cases he0
  | cons e t ih =>
    simp only [List.map_cons, List.nodup_cons] at hidx
    rcases List.mem_cons.mp he0 with rfl | het
    · exact List.find?_cons_of_pos t (by simpa using hi)
    · by_cases hfe : e.questionIndex = i
      · exfalso
        apply hidx.1
        rw [hfe, ← hi]
        exact List.mem_map_of_mem _ het
      · rw [List.find?_cons_of_neg t (by simpa using hfe)]
        exact ih het hidx.2

/-- A record whose primary key matches no snapshot record found by the
loop is never modified by the write-back fold. -/
lemma foldl_evalStep_fixed (evals : List EvalEntry) (snap : List Answer) (b : Answer)
    (hb : ∀ e ∈ evals, ∀ a, snap.find? (fun x => x.questionIndex = e.questionIndex) = some a →
      a.id ≠ b.id) :
    evals.foldl (evalStep snap) b = b := by
  induction evals with
  | nil => rfl
  | cons e rest ih =>
    simp only [List.foldl_cons]
    have hstep : evalStep snap b e = b := by
      unfold evalStep
      split
      · rfl
      · rename_i a hf
        rw [if_neg (fun hc => hb e (List.mem_cons_self e rest) a hf hc.symm)]
    rw [hstep]
    exact ih (fun e' he' a hf => hb e' (List.mem_cons_of_mem e he') a hf)

/-- The write-back fold turns a snapshot record into its final value when
snapshot ids/indices and evaluation indices are pairwise distinct. -/
lemma foldl_evalStep_mem (evals : List EvalEntry) (snap : List Answer) (a0 : Answer)
    (ha0 : a0 ∈ snap)
    (hids : (snap.map (fun a => a.id)).Nodup)
    (hidx : (snap.map (fun a => a.questionIndex)).Nodup)
    (hedup : (evals.map (fun e => e.questionIndex)).Nodup) :
    evals.foldl (evalStep snap) a0 = finalAnswer evals a0 := by
  induction evals with
  | nil => rfl
  | cons e rest ih =>
    simp only [List.map_cons, List.nodup_cons] at hedup
    simp only [List.foldl_cons]
    by_cases hmatch : e.questionIndex = a0.questionIndex
    · have hfindsnap : snap.find? (fun a => a.questionIndex = e.questionIndex) = some a0 :=
        find?_answer_idx_self snap a0 e.questionIndex ha0 hidx hmatch.symm
      have hstep : evalStep snap a0 e = { a0 with evaluation := some (mkAnswerEvaluation e) } := by
        unfold evalStep
        split
        · rename_i hf
          rw [hfindsnap] at hf; cases hf
        · rename_i a hf
          rw [hfindsnap] at hf
          cases hf
          rw [if_pos rfl]
      rw [hstep]
      have hfix : rest.foldl (evalStep snap) { a0 with evaluation := some (mkAnswerEvaluation e) } =
          { a0 with evaluation := some (mkAnswerEvaluation e) } := by
        apply foldl_evalStep_fixed
        intro e' he' a' hf' hcid
        have ha' : a' ∈ snap := List.mem_of_find?_eq_some hf'
        have hai : a'.questionIndex = e'.questionIndex := by
          simpa using List.find?_some hf'
        have haa : a' = a0 := List.inj_on_of_nodup_map hids ha' ha0 (by simpa using hcid)
        apply hedup.1
        rw [hmatch, ← haa, hai]
        exact List.mem_map_of_mem _ he'
      rw [hfix]
      unfold finalAnswer
      rw [List.find?_cons_of_pos rest (by simpa using hmatch)]
    · have hstep : evalStep snap a0 e = a0 := by
        unfold evalStep
        split
        · rfl
        · rename_i a' hf
          have hai : a'.questionIndex = e.questionIndex := by
            simpa using List.find?_some hf
          have hne : a' ≠ a0 := by
            intro hc
            exact hmatch (by rw [← hai, hc])
          rw [if_neg (fun hc => hne
            (List.inj_on_of_nodup_map hids (List.mem_of_find?_eq_some hf) ha0 (by simpa using hc.symm)))]
      rw [hstep, ih hedup.2]
      unfold finalAnswer
      rw [List.find?_cons_of_neg rest (by simpa using hmatch)]

/-- The write-back loop acts pointwise on the stored answers. -/
lemma applyEvaluations_answers (evals : List EvalEntry) (st : Store) (snap : List Answer) :
    (applyEvaluations st snap evals).answers =
      st.answers.map (fun b => evals.foldl (evalStep snap) b) := by
  induction evals generalizing st with
  | nil => simp [applyEvaluations]
  | cons e rest ih =>
    unfold applyEvaluations at ih ⊢
    simp only [List.foldl_cons]
    rw [ih]
    unfold writeEvaluation
    cases hf : snap.find? (fun a => a.questionIndex = e.questionIndex) with
    | none =>
      apply List.map_congr_left
      intro b _
      have : evalStep snap b e = b := by
        unfold evalStep
        rw [hf]
      rw [this]
    | some a =>
      simp only [saveAnswerRecord]
      rw [List.map_map]
      apply List.map_congr_left
      intro b _
      simp only [Function.comp]
      have : evalStep snap b e =
          (if b.id = ({ a with evaluation := some (mkAnswerEvaluation e) } : Answer).id
             then ({ a with evaluation := some (mkAnswerEvaluation e) } : Answer) else b) := by
        unfold evalStep
        rw [hf]
      rw [← this]

/-- Pointwise characterization of the store after the write-back loop:
session-owned records take their final value, every other record is
untouched. -/
lemma applyEvaluations_answers_char (st : Store) (sid : String) (evals : List EvalEntry)
    (hids : (st.answers.map (fun a => a.id)).Nodup)
    (hidx : ((answersForSession st sid).map (fun a => a.questionIndex)).Nodup)
    (hedup : (evals.map (fun e => e.questionIndex)).Nodup) :
    (applyEvaluations st (answersForSession st sid) evals).answers =
      st.answers.map (fun b => if b.sessionId = sid then finalAnswer evals b else b) := by
  rw [applyEvaluations_answers]
  apply List.map_congr_left
  intro b hb
  by_cases hsid : b.sessionId = sid
  · rw [if_pos hsid]
    exact foldl_evalStep_mem evals _ b ((mem_answersForSession st sid b).mpr ⟨hb, hsid⟩)
      (answersForSession_ids_nodup st sid hids) hidx hedup
  · rw [if_neg hsid]
    apply foldl_evalStep_fixed
    intro e _ a hf hcid
    have ha : a ∈ answersForSession st sid := List.mem_of_find?_eq_some hf
    have ha' := (mem_answersForSession st sid a).mp ha
    have : a = b := List.inj_on_of_nodup_map hids ha'.1 hb hcid
    exact hsid (this ▸ ha'.2)

/-- Replacing the found session by an update with the same primary key
makes the update the record found afterwards. -/
lemma findSessionById_replace (sessions : List Session) (sid : String) (ses new : Session)
    (hfind : sessions.find? (fun s => s.id = sid) = some ses)
    (hid : new.id = ses.id) :
    (sessions.map (fun t => if t.id = new.id then new else t)).find?
      (fun s => s.id = sid) = some new := by
  induction sessions with
  | nil => cases hfind
  | cons s t ih =>
    have hsessid : ses.id = sid := by simpa using List.find?_some hfind
    by_cases hs : s.id = sid
    · have hse : s = ses := by
        rw [List.find?_cons_of_pos t (by simpa using hs)] at hfind
        exact Option.some.inj hfind
      subst hse
      simp only [List.map_cons]
      rw [if_pos (by rw [hid])]
      exact List.find?_cons_of_pos _ (by simpa [hid] using hsessid)
    · rw [List.find?_cons_of_neg t (by simpa using hs)] at hfind
      simp only [List.map_cons]
      by_cases hsn : s.id = new.id
      · exact absurd (hsn.trans (hid.trans hsessid)) hs
      · rw [if_neg hsn]
        rw [List.find?_cons_of_neg _ (by simpa using hs)]
        exact ih hfind

/-- Question indices of the clamped evaluations are those of the raw
grader evaluations. -/
lemma evaluateAnswersResult_idx (resp : GraderResponse) :
    (evaluateAnswersResult resp).evaluations.map (fun e => e.questionIndex) =
      resp.evaluations.map (fun e => e.questionIndex) := by
  simp only [evaluateAnswersResult]
  rw [List.map_map]
  rfl

/-- After a successful completion, the session is found in the store as
the completed update of the loaded session. -/
lemma completeInterview_success_session (st : Store) (sid uid : String)
    (resp : GraderResponse) (now : Nat) (ses : Session) (itv : Interview)
    (hval : validateSessionOwnership st sid uid = .ok ses)
    (hst : ¬ ses.status = SessionStatus.completed)
    (hne : answersForSession st sid ≠ [])
    (hitv : findInterviewById st ses.interviewId = some itv)
    (hq : itv.questions ≠ []) :
    findSessionById (completeInterview st sid uid (.ok resp) now).2 sid =
      some (sesCompleted ses now) := by
  rw [completeInterview_success_char st sid uid resp now ses itv hval hst hne hitv hq]
  have hfound := (validateSessionOwnership_ok st sid uid ses hval).1
  unfold findSessionById at hfound ⊢
  simp only [saveSessionRecord, applyEvaluations_sessions]
  exact findSessionById_replace st.sessions sid ses (sesCompleted ses now) hfound rfl

/-! Claim C1. -/

/-- C1 counterexample: a successful completion writes the evaluation onto
the answer and completes the session, but persists no skillBreakdown,
categoryBreakdown or performanceMetrics onto the session record — those
fields stay null, although the spec's aggregator output over the
evaluated score list [8] is the non-null block with min = max = median
= 8, so the claimed persistence of the aggregation does not happen. -/
theorem C1_counterexample :
    ((completeInterview st0 "s1" "u1" (.ok graderOk) 5).2.sessions.map
      (fun s => (s.skillBreakdown, s.categoryBreakdown, s.performanceMetrics, s.status))) =
      [(none, none, none, SessionStatus.completed)] ∧
    specPerformanceMetrics [8] = ⟨8, 8, 8⟩ := by
  constructor
  · decide
  · decide

/-- C1 (amended): on the non-short-circuit success path each returned
per-question evaluation is written (clamped) onto the Answer record with
the matching questionIndex, evaluations whose index matches no answer
change no record, and the session transitions to COMPLETED with
completedAt set — but no aggregation output is computed or persisted:
the stored session keeps its previous skillBreakdown, categoryBreakdown,
performanceMetrics, overallScore, summary and recommendations. -/
theorem C1_completion_writeback (st : Store) (sid uid : String) (resp : GraderResponse)
    (now : Nat) (ses : Session) (itv : Interview)
    (hwf : answersWf st)
    (hval : validateSessionOwnership st sid uid = .ok ses)
    (hst : ¬ ses.status = SessionStatus.completed)
    (hne : answersForSession st sid ≠ [])
    (hitv : findInterviewById st ses.interviewId = some itv)
    (hq : itv.questions ≠ [])
    (hedup : (resp.evaluations.map (fun e => e.questionIndex)).Nodup) :
    completeInterview st sid uid (.ok resp) now =
      (.ok { session := sesCompleted ses now
             evaluations := (evaluateAnswersResult resp).evaluations
             overallScore := (evaluateAnswersResult resp).overallScore
             summary := resp.summary
             recommendations := resp.recommendations },
       saveSessionRecord
         (applyEvaluations st (answersForSession st sid)
           (evaluateAnswersResult resp).evaluations)
         (sesCompleted ses now)) ∧
    findSessionById (completeInterview st sid uid (.ok resp) now).2 sid =
      some (sesCompleted ses now) ∧
    ((sesCompleted ses now).status = SessionStatus.completed ∧
      (sesCompleted ses now).completedAt = some now ∧
      (sesCompleted ses now).skillBreakdown = ses.skillBreakdown ∧
      (sesCompleted ses now).categoryBreakdown = ses.categoryBreakdown ∧
      (sesCompleted ses now).performanceMetrics = ses.performanceMetrics ∧
      (sesCompleted ses now).overallScore = ses.overallScore ∧
      (sesCompleted ses now).summary = ses.summary ∧
      (sesCompleted ses now).recommendations = ses.recommendations) ∧
    (∀ a ∈ answersForSession st sid, ∀ e ∈ (evaluateAnswersResult resp).evaluations,
      e.questionIndex = a.questionIndex →
      { a with evaluation := some (mkAnswerEvaluation e) } ∈
        (completeInterview st sid uid (.ok resp) now).2.answers) ∧
    (∀ b ∈ (completeInterview st sid uid (.ok resp) now).2.answers,
      b ∈ st.answers ∨
      ∃ a ∈ answersForSession st sid, ∃ e ∈ (evaluateAnswersResult resp).evaluations,
        e.questionIndex = a.questionIndex ∧
        b = { a with evaluation := some (mkAnswerEvaluation e) }) := by
  have hmain := completeInterview_success_char st sid uid resp now ses itv hval hst hne hitv hq
  have hedup' : ((evaluateAnswersResult resp).evaluations.map
      (fun e => e.questionIndex)).Nodup := by
    rw [evaluateAnswersResult_idx]
    exact hedup
  have hchar : (completeInterview st sid uid (.ok resp) now).2.answers =
      st.answers.map (fun b => if b.sessionId = sid
        then finalAnswer (evaluateAnswersResult resp).evaluations b else b) := by
    rw [hmain]
    simp only [saveSessionRecord]
    exact applyEvaluations_answers_char st sid _ hwf.1
      (answersForSession_idx_nodup st sid hwf) hedup'
  refine ⟨hmain, completeInterview_success_session st sid uid resp now ses itv
    hval hst hne hitv hq, ⟨rfl, rfl, rfl, rfl, rfl, rfl, rfl, rfl⟩, ?_, ?_⟩
  · intro a ha e he hidx
    rw [hchar]
    have hmem := (mem_answersForSession st sid a).mp ha
    have hfa : finalAnswer (evaluateAnswersResult resp).evaluations a =
        { a with evaluation := some (mkAnswerEvaluation e) } := by
      unfold finalAnswer
      rw [find?_eval_idx_self _ e a.questionIndex he hedup' hidx]
    refine List.mem_map.mpr ⟨a, hmem.1, ?_⟩
    show (if a.sessionId = sid
      then finalAnswer (evaluateAnswersResult resp).evaluations a else a) = _
    rw [if_pos hmem.2, hfa]
  · intro b hb
    rw [hchar] at hb
    obtain ⟨c, hc, rfl⟩ := List.mem_map.mp hb
    by_cases hsid : c.sessionId = sid
    · rw [if_pos hsid]
      unfold finalAnswer
      split
    -- none case: untouched record is an original one
      · exact Or.inl hc
      · rename_i e hf
        exact Or.inr ⟨c, (mem_answersForSession st sid c).mpr ⟨hc, hsid⟩,
          e, List.mem_of_find?_eq_some hf, by simpa using List.find?_some hf, rfl⟩
    · rw [if_neg hsid]
      exact Or.inl hc

/-- Witness for C1 at the concrete scenario. -/
theorem C1_completion_writeback_witness :
    { ans1 with evaluation := some (mkAnswerEvaluation ⟨0, 8, "good depth", [], []⟩) } ∈
      (completeInterview st0 "s1" "u1" (.ok graderOk) 5).2.answers := by
  exact (C1_completion_writeback st0 "s1" "u1" graderOk 5 ses1 interview1
      (by refine ⟨?_, ?_, ?_⟩ <;> decide) (by decide) (by decide) (by decide)
      (by decide) (by decide) (by decide)).2.2.2.1
    ans1 (by decide) ⟨0, 8, "good depth", [], []⟩ (by decide) (by decide)

/-! Claim C6. -/

/-- C6 counterexample: on a successful completion the per-question
evaluations and the COMPLETED transition are written, yet no aggregation
output is persisted (performanceMetrics/skillBreakdown/categoryBreakdown
stay null), so the three are not written together as claimed. -/
theorem C6_counterexample :
    ((completeInterview st0 "s1" "u1" (.ok graderOk) 5).2.answers.map
      (fun a => a.evaluation)) = [some ⟨8, "good depth", [], []⟩] ∧
    ((completeInterview st0 "s1" "u1" (.ok graderOk) 5).2.sessions.map
      (fun s => (s.performanceMetrics, s.skillBreakdown, s.categoryBreakdown, s.status))) =
      [(none, none, none, SessionStatus.completed)] := by
  constructor
  · decide
  · decide

/-- C6 (amended): every failing `completeInterview` writes nothing — the
store is returned unchanged, so no Answer gains an evaluation and the
session keeps its status and all other fields, leaving complete
retriable; in particular the zero-answers InvalidState failure and the
propagated grading failure leave the store untouched (evaluations and
the COMPLETED transition are only written together on success, and no
aggregation output is ever persisted on any path). -/
theorem C6_failure_writes_nothing (st : Store) (sid uid : String)
    (g : Except String GraderResponse) (now : Nat) :
    (∀ e, (completeInterview st sid uid g now).1 = .error e →
      (completeInterview st sid uid g now).2 = st) ∧
    (∀ ses, validateSessionOwnership st sid uid = .ok ses →
      ¬ ses.status = SessionStatus.completed →
      answersForSession st sid = [] →
      completeInterview st sid uid g now =
        (.error (.badRequest "No answers found to evaluate"), st)) ∧
    (∀ ses itv msg, validateSessionOwnership st sid uid = .ok ses →
      ¬ ses.status = SessionStatus.completed →
      answersForSession st sid ≠ [] →
      findInterviewById st ses.interviewId = some itv →
      itv.questions ≠ [] →
      g = .error msg →
      completeInterview st sid uid g now =
        (.error (.badRequest ("Evaluation failed: " ++ msg)), st)) := by
  refine ⟨?_, ?_, ?_⟩
  · intro e
    unfold completeInterview
    split
    · intro _; rfl
    · split
      · intro h; simp at h
      · split
        · intro _; rfl
        · split
          · intro _; rfl
          · split
            · intro _; rfl
            · intro h; simp at h
  · intro ses hval hst hempty
    unfold completeInterview
    split
    · rename_i e heq; rw [hval] at heq; cases heq
    · rename_i s heq
      rw [hval] at heq; cases heq
      rw [if_neg hst]
      rw [if_pos (by simp [hempty])]
  · intro ses itv msg hval hst hne hitv hq hg
    subst hg
    unfold completeInterview
    split
    · rename_i e heq; rw [hval] at heq; cases heq
    · rename_i s heq
      rw [hval] at heq; cases heq
      rw [if_neg hst]
      rw [if_neg (by simpa [List.length_eq_zero] using hne)]
      split
      · rename_i heq2; rw [hitv] at heq2; cases heq2
      · rename_i itv2 heq2
        rw [hitv] at heq2; cases heq2
        have herr := evaluateAnswers_err itv.questions
          ((answersForSession st sid).map (fun a =>
            AnswerData.mk a.questionIndex a.questionText a.transcription)) msg
          (by simpa [List.length_eq_zero] using hq)
          (by simp only [List.length_map]; simpa [List.length_eq_zero] using hne)
        split
        · rename_i e heq3
          rw [herr] at heq3
          cases heq3
          rfl
        · rename_i result heq3
          rw [herr] at heq3; cases heq3

/-- Witness for C6: completing a session with zero answers fails with the
no-answers error and returns the store unchanged; a grading failure does
the same. -/
theorem C6_failure_writes_nothing_witness :
    completeInterview st3 "s3" "u3" (.ok graderOk) 9 =
      (.error (.badRequest "No answers found to evaluate"), st3) ∧
    completeInterview st0 "s1" "u1" (.error "model overloaded") 9 =
      (.error (.badRequest "Evaluation failed: model overloaded"), st0) := by
  constructor
  · exact (C6_failure_writes_nothing st3 "s3" "u3" (.ok graderOk) 9).2.1 ses3
      (by decide) (by decide) (by decide)
  · exact (C6_failure_writes_nothing st0 "s1" "u1" (.error "model overloaded") 9).2.2
      ses1 interview1 "model overloaded" (by decide) (by decide) (by decide)
      (by decide) (by decide) rfl

/-! Claim C10. -/

/-- C10 (confirmed): against an already-COMPLETED session, every repeat
call of `completeInterview` returns the constant summary 'Interview
already completed' and an empty recommendations list, whatever grader
response is supplied; and the successful completion path itself never
persists the grader's summary or recommendations onto the session record
(those fields keep their previous values), so the original strings are
not recoverable from any repeat call. -/
theorem C10_summary_not_persisted (st : Store) (sid uid : String) (now : Nat) :
    (∀ ses g, validateSessionOwnership st sid uid = .ok ses →
      ses.status = SessionStatus.completed →
      completeInterview st sid uid g now =
        (.ok { session := ses
               evaluations := shortEvals st sid
               overallScore := some (shortOverall st sid)
               summary := "Interview already completed"
               recommendations := [] }, st)) ∧
    (∀ ses itv resp, validateSessionOwnership st sid uid = .ok ses →
      ¬ ses.status = SessionStatus.completed →
      answersForSession st sid ≠ [] →
      findInterviewById st ses.interviewId = some itv →
      itv.questions ≠ [] →
      findSessionById (completeInterview st sid uid (.ok resp) now).2 sid =
        some (sesCompleted ses now) ∧
      (sesCompleted ses now).summary = ses.summary ∧
      (sesCompleted ses now).recommendations = ses.recommendations) := by
  constructor
  · intro ses g hval hc
    exact completeInterview_shortCircuit st sid uid g now ses hval hc
  · intro ses itv resp hval hst hne hitv hq
    exact ⟨completeInterview_success_session st sid uid resp now ses itv
      hval hst hne hitv hq, rfl, rfl⟩

/-- Witness for C10: a repeat call against the completed concrete store
returns the constant summary and empty recommendations, not the grader's
strings. -/
theorem C10_summary_not_persisted_witness :
    completeInterview stDone "s1" "u1" (.ok graderExplicit) 9 =
      (.ok { session := sesDone
             evaluations := [⟨0, 8, "good depth", [], []⟩]
             overallScore := some 8
             summary := "Interview already completed"
             recommendations := [] }, stDone) := by
  rw [(C10_summary_not_persisted stDone "s1" "u1" 9).1 sesDone (.ok graderExplicit)
    (by decide) (by decide)]
  have h1 : shortEvals stDone "s1" = [⟨0, 8, "good depth", [], []⟩] := by decide
  have h2 : shortOverall stDone "s1" = 8 := by
    unfold shortOverall
    rw [h1]
    norm_num
  rw [h1, h2]

/-! Machinery for the idempotence claim (C2). -/

/-- The write-back keeps a record's question index. -/
lemma finalAnswer_questionIndex (E : List EvalEntry) (b : Answer) :
    (finalAnswer E b).questionIndex = b.questionIndex := by
  unfold finalAnswer
  split <;> rfl

/-- The write-back keeps a record's owning session. -/
lemma if_finalAnswer_sessionId (E : List EvalEntry) (sid : String) (b : Answer) :
    ((if b.sessionId = sid then finalAnswer E b else b) : Answer).sessionId = b.sessionId := by
  by_cases hb : b.sessionId = sid
  · rw [if_pos hb]
    unfold finalAnswer
    split <;> rfl
  · rw [if_neg hb]

/-- Ownership validation succeeds on the found session of the caller. -/
lemma validateSessionOwnership_eq_ok (st : Store) (sid uid : String) (ses : Session)
    (hfind : findSessionById st sid = some ses) (huid : ses.userId = uid) :
    validateSessionOwnership st sid uid = .ok ses := by
  unfold validateSessionOwnership
  rw [hfind]
  show (if ses.userId = uid then Except.ok ses
    else Except.error (ApiError.notFound "Interview session not found")) = Except.ok ses
  rw [if_pos huid]

/-- Restricting a filterMap over a duplicate-free key list to the
duplicate-free sub-list that carries all its hits only permutes the
output. -/
lemma filterMap_perm_of_nodup {β : Type} (g : Int → Option β) (big small : List Int)
    (hbig : big.Nodup) (hsmall : small.Nodup) (hsub : ∀ i ∈ small, i ∈ big)
    (hnone : ∀ i ∈ big, i ∉ small → g i = none) :
    (big.filterMap g).Perm (small.filterMap g) := by
  induction small generalizing big with
  | nil =>
    have hn : big.filterMap g = [] :=
      List.filterMap_eq_nil_iff.mpr (fun i hi => hnone i hi (by simp))
    rw [hn]
    rfl
  | cons j t ih =>
    have hjb : j ∈ big := hsub j (List.mem_cons_self j t)
    have hperm := List.perm_cons_erase hjb
    refine (List.Perm.filterMap g hperm).trans ?_
    simp only [List.filterMap_cons]
    have hsmall' := List.nodup_cons.mp hsmall
    have ht : ((big.erase j).filterMap g).Perm (t.filterMap g) := by
      apply ih
      · exact hbig.erase j
      · exact hsmall'.2
      · intro i hit
        have hib := hsub i (List.mem_cons_of_mem j hit)
        have hij : i ≠ j := fun hc => hsmall'.1 (hc ▸ hit)
        exact hbig.mem_erase_iff.mpr ⟨hij, hib⟩
      · intro i hie hnit
        apply hnone i (List.mem_of_mem_erase hie)
        intro hc
        rcases List.mem_cons.mp hc with rfl | h
        · exact (hbig.mem_erase_iff.mp hie).1 rfl
        · exact hnit h
    cases g j with
    | none => exact ht
    | some b => exact ht.cons b

/-- The replay evaluation list is empty when no stored answer carries an
evaluation. -/
lemma shortEvals_nil_of_unevaluated (st : Store) (sid : String)
    (h : ∀ a ∈ answersForSession st sid, a.evaluation = none) :
    shortEvals st sid = [] := by
  unfold shortEvals
  refine List.filterMap_eq_nil_iff.mpr ?_
  intro a ha
  rw [h a ha]
  rfl

/-- The replayed overall score is 0 when no stored answer carries an
evaluation. -/
lemma shortOverall_zero_of_unevaluated (st : Store) (sid : String)
    (h : ∀ a ∈ answersForSession st sid, a.evaluation = none) :
    shortOverall st sid = 0 := by
  simp only [shortOverall]
  rw [shortEvals_nil_of_unevaluated st sid h]
  rfl

/-- Saving a session does not change the replayed evaluations. -/
lemma shortEvals_saveSession (st : Store) (s : Session) (sid : String) :
    shortEvals (saveSessionRecord st s) sid = shortEvals st sid := rfl

/-- Saving a session does not change the replayed overall score. -/
lemma shortOverall_saveSession (st : Store) (s : Session) (sid : String) :
    shortOverall (saveSessionRecord st s) sid = shortOverall st sid := rfl

/-- With a falsy supplied overall score and at least one evaluation, the
post-processed overall score is the mean of the clamped scores. -/
lemma evaluateAnswersResult_overall_falsy (resp : GraderResponse)
    (hf : jsNumFalsy resp.overallScore = true) (hne : resp.evaluations ≠ []) :
    (evaluateAnswersResult resp).overallScore =
      some ((((evaluateAnswersResult resp).evaluations).map (fun e => e.score)).sum /
        ((((evaluateAnswersResult resp).evaluations).map (fun e => e.score)).length : ℚ)) := by
  simp only [evaluateAnswersResult, hf, if_true]
  rw [if_neg (by simp [List.length_eq_zero, hne])]

/-- After the write-back loop, replaying the stored evaluations yields a
permutation of the written evaluation batch, provided every evaluation
matched a stored answer, no answer was evaluated before, and the
indices involved are duplicate-free. -/
lemma shortEvals_after_writeback (st : Store) (sid : String) (E : List EvalEntry)
    (hwf : answersWf st)
    (hedup : (E.map (fun e => e.questionIndex)).Nodup)
    (hmatch : ∀ e ∈ E, ∃ a ∈ answersForSession st sid, a.questionIndex = e.questionIndex)
    (hprev : ∀ a ∈ answersForSession st sid, a.evaluation = none) :
    (shortEvals (applyEvaluations st (answersForSession st sid) E) sid).Perm E := by
  have hchar := applyEvaluations_answers_char st sid E hwf.1
    (answersForSession_idx_nodup st sid hwf) hedup
  have h1 := answersForSession_perm (applyEvaluations st (answersForSession st sid) E) sid
  rw [hchar] at h1
  have h2 : (st.answers.map (fun b => if b.sessionId = sid then finalAnswer E b else b)).filter
      (fun a => a.sessionId = sid) =
      (st.answers.filter (fun a => a.sessionId = sid)).map
        (fun b => if b.sessionId = sid then finalAnswer E b else b) := by
    rw [List.filter_map]
    congr 1
    apply List.filter_congr
    intro b _
    simp only [Function.comp, if_finalAnswer_sessionId]
  rw [h2] at h1
  have h3 := (answersForSession_perm st sid).map
    (fun b => if b.sessionId = sid then finalAnswer E b else b)
  have hperm1 := h1.trans h3.symm
  unfold shortEvals
  refine (List.Perm.filterMap _ hperm1).trans ?_
  have hstep2 : ((answersForSession st sid).map
        (fun b => if b.sessionId = sid then finalAnswer E b else b)).filterMap
      (fun a => a.evaluation.map (fun ev =>
        EvalEntry.mk a.questionIndex ev.score ev.feedback ev.strengths ev.weaknesses)) =
      ((answersForSession st sid).map (fun a => a.questionIndex)).filterMap
        (fun i => E.find? (fun e => e.questionIndex = i)) := by
    rw [List.filterMap_map, List.filterMap_map]
    apply List.filterMap_congr
    intro a ha
    simp only [Function.comp]
    have hsid : a.sessionId = sid := ((mem_answersForSession st sid a).mp ha).2
    rw [if_pos hsid]
    have hidx := finalAnswer_questionIndex E a
    unfold finalAnswer at hidx ⊢
    split
    · rename_i hf
      rw [hprev a ha, hf]
      rfl
    · rename_i e hf
      have he : e.questionIndex = a.questionIndex := by simpa using List.find?_some hf
      rw [hf]
      show some (EvalEntry.mk a.questionIndex e.score e.feedback e.strengths e.weaknesses) = some e
      rw [← he]
  rw [hstep2]
  have hbig : ((answersForSession st sid).map (fun a => a.questionIndex)).Nodup :=
    answersForSession_idx_nodup st sid hwf
  have hstep4 := filterMap_perm_of_nodup (fun i => E.find? (fun e => e.questionIndex = i))
    ((answersForSession st sid).map (fun a => a.questionIndex))
    (E.map (fun e => e.questionIndex)) hbig hedup
    (by
      intro i hi
      obtain ⟨e, he, rfl⟩ := List.mem_map.mp hi
      obtain ⟨a, ha, haidx⟩ := hmatch e he
      rw [← haidx]
      exact List.mem_map_of_mem _ ha)
    (by
      intro i _ hni
      refine List.find?_eq_none.mpr ?_
      intro e he
      simp only [decide_eq_true_eq]
      intro hc
      exact hni (hc ▸ List.mem_map_of_mem _ he))
  refine hstep4.trans ?_
  have hstep5 : (E.map (fun e => e.questionIndex)).filterMap
      (fun i => E.find? (fun e => e.questionIndex = i)) = E := by
    rw [List.filterMap_map]
    rw [List.filterMap_congr (g := fun e => some e) ?_]
    · exact List.filterMap_some E
    · intro e he
      simp only [Function.comp]
      exact find?_eval_idx_self E e e.questionIndex he hedup rfl
  rw [hstep5]

/-! Claim C2. -/

/-- C2 counterexample: the grader supplies the explicit overall 9 while
the single per-question score is 5; the first completion returns 9 but
the second (short-circuit) call recomputes the mean 5 from the stored
evaluations, so the two calls do not yield an identical overallScore. -/
theorem C2_counterexample :
    ((completeInterview st0 "s1" "u1" (.ok graderExplicit) 5).1.map
      (fun r => r.overallScore)) = .ok (some 9) ∧
    ((completeInterview (completeInterview st0 "s1" "u1" (.ok graderExplicit) 5).2
      "s1" "u1" (.ok graderExplicit) 6).1.map
      (fun r => r.overallScore)) = .ok (some 5) ∧
    some (9:ℚ) ≠ some 5 := by
  refine ⟨by decide, ?_, by norm_num⟩
  have hst : (completeInterview st0 "s1" "u1" (.ok graderExplicit) 5).2 =
      ⟨[interview1],
       [{ ses1 with status := SessionStatus.completed, completedAt := some 5 }],
       [{ ans1 with evaluation := some ⟨5, "ok", [], []⟩ }], 1⟩ := by
    decide
  rw [hst]
  norm_num [completeInterview, validateSessionOwnership, findSessionById,
    shortEvals, shortOverall, answersForSession, List.insertionSort, List.orderedInsert,
    byQuestionIndex, ans1, ses1, interview1, Except.map,
    List.filterMap_cons, List.filterMap_nil]

/-- C2 (amended): repeat calls against a COMPLETED session never consult
the grader, never change the store, and report zero/empty when no
evaluations are stored — so the grader runs at most once in total and
every call after the first returns the same result; the second call's
overallScore equals the first call's provided the grader supplied no
truthy explicit overall score, returned at least one evaluation, every
evaluation matched a stored (previously unevaluated) answer, and indices
are duplicate-free — the counterexample shows it differs otherwise; the
breakdown fields are identical on both calls only because neither call
produces them: both return the session record's untouched (null)
skillBreakdown, categoryBreakdown, performanceMetrics. -/
theorem C2_complete_idempotence (st : Store) (sid uid : String) (resp : GraderResponse)
    (now now2 : Nat) (g2 : Except String GraderResponse) (ses : Session) (itv : Interview)
    (hwf : answersWf st)
    (hval : validateSessionOwnership st sid uid = .ok ses)
    (hst : ¬ ses.status = SessionStatus.completed)
    (hne : answersForSession st sid ≠ [])
    (hitv : findInterviewById st ses.interviewId = some itv)
    (hq : itv.questions ≠ [])
    (hedup : (resp.evaluations.map (fun e => e.questionIndex)).Nodup)
    (hfalsy : jsNumFalsy resp.overallScore = true)
    (hevne : resp.evaluations ≠ [])
    (hmatch : ∀ e ∈ resp.evaluations, ∃ a ∈ answersForSession st sid,
      a.questionIndex = e.questionIndex)
    (hprev : ∀ a ∈ answersForSession st sid, a.evaluation = none) :
    (∀ st1 ses1 g now1, validateSessionOwnership st1 sid uid = .ok ses1 →
      ses1.status = SessionStatus.completed →
      (completeInterview st1 sid uid g now1).2 = st1 ∧
      (∀ g', completeInterview st1 sid uid g now1 = completeInterview st1 sid uid g' now1) ∧
      ((∀ a ∈ answersForSession st1 sid, a.evaluation = none) →
        (completeInterview st1 sid uid g now1).1 =
          .ok { session := ses1
                evaluations := []
                overallScore := some 0
                summary := "Interview already completed"
                recommendations := [] })) ∧
    ((completeInterview (completeInterview st sid uid (.ok resp) now).2
        sid uid g2 now2).1.map (fun r => r.overallScore)) =
      ((completeInterview st sid uid (.ok resp) now).1.map (fun r => r.overallScore)) ∧
    ((completeInterview (completeInterview st sid uid (.ok resp) now).2
        sid uid g2 now2).1.map (fun r =>
          (r.session.skillBreakdown, r.session.categoryBreakdown,
            r.session.performanceMetrics))) =
      ((completeInterview st sid uid (.ok resp) now).1.map (fun r =>
        (r.session.skillBreakdown, r.session.categoryBreakdown,
          r.session.performanceMetrics))) ∧
    (∀ g2', completeInterview (completeInterview st sid uid (.ok resp) now).2 sid uid g2 now2 =
      completeInterview (completeInterview st sid uid (.ok resp) now).2 sid uid g2' now2) := by
  have hmain := completeInterview_success_char st sid uid resp now ses itv hval hst hne hitv hq
  have hfind2 := completeInterview_success_session st sid uid resp now ses itv hval hst hne hitv hq
  have huid : ses.userId = uid := (validateSessionOwnership_ok st sid uid ses hval).2.2.1
  have hval2 : validateSessionOwnership (completeInterview st sid uid (.ok resp) now).2 sid uid =
      .ok (sesCompleted ses now) :=
    validateSessionOwnership_eq_ok _ sid uid _ hfind2 huid
  have hsc := fun g' now' => completeInterview_shortCircuit
    (completeInterview st sid uid (.ok resp) now).2 sid uid g' now' (sesCompleted ses now)
    hval2 rfl
  have hedup' : ((evaluateAnswersResult resp).evaluations.map
      (fun e => e.questionIndex)).Nodup := by
    rw [evaluateAnswersResult_idx]
    exact hedup
  have hmatch' : ∀ e ∈ (evaluateAnswersResult resp).evaluations,
      ∃ a ∈ answersForSession st sid, a.questionIndex = e.questionIndex := by
    intro e he
    have hmem : e.questionIndex ∈ (evaluateAnswersResult resp).evaluations.map
        (fun e => e.questionIndex) := List.mem_map_of_mem _ he
    rw [evaluateAnswersResult_idx] at hmem
    obtain ⟨raw, hraw, hidx⟩ := List.mem_map.mp hmem
    obtain ⟨a, ha, haidx⟩ := hmatch raw hraw
    exact ⟨a, ha, by rw [haidx, hidx]⟩
  refine ⟨?_, ?_, ?_, ?_⟩
  · intro st1 ses1 g now1 hval1 hc1
    have h := completeInterview_shortCircuit st1 sid uid g now1 ses1 hval1 hc1
    refine ⟨by rw [h], fun g' => ?_, fun hnone => ?_⟩
    · rw [h, completeInterview_shortCircuit st1 sid uid g' now1 ses1 hval1 hc1]
    · rw [h]
      simp only
      rw [shortEvals_nil_of_unevaluated st1 sid hnone,
        shortOverall_zero_of_unevaluated st1 sid hnone]
  · rw [hsc g2 now2, hmain]
    simp only [Except.map]
    have hperm := shortEvals_after_writeback st sid
      ((evaluateAnswersResult resp).evaluations) hwf hedup' hmatch' hprev
    have hperm2 := hperm.map (fun e => e.score)
    have hlenE : (evaluateAnswersResult resp).evaluations ≠ [] := by
      simp only [evaluateAnswersResult]
      simpa using hevne
    have hoverall2 : shortOverall
        (saveSessionRecord (applyEvaluations st (answersForSession st sid)
          (evaluateAnswersResult resp).evaluations) (sesCompleted ses now)) sid =
        ((((evaluateAnswersResult resp).evaluations).map (fun e => e.score)).sum /
          ((((evaluateAnswersResult resp).evaluations).map (fun e => e.score)).length : ℚ)) := by
      rw [shortOverall_saveSession]
      simp only [shortOverall]
      rw [hperm2.length_eq, hperm2.sum_eq]
      rw [if_pos]
      simp only [List.length_map]
      exact Nat.pos_of_ne_zero (by simpa [List.length_eq_zero] using hlenE)
    rw [hoverall2, evaluateAnswersResult_overall_falsy resp hfalsy hevne]
  · rw [hsc g2 now2, hmain]
    simp only [Except.map]
  · intro g2'
    rw [hsc g2 now2, hsc g2' now2]

/-- Witness for C2 at the concrete scenario: a second completion call
reports the same overall score as the first. -/
theorem C2_complete_idempotence_witness :
    ((completeInterview (completeInterview st0 "s1" "u1" (.ok graderOk) 5).2
        "s1" "u1" (.ok graderOk) 6).1.map (fun r => r.overallScore)) =
      ((completeInterview st0 "s1" "u1" (.ok graderOk) 5).1.map
        (fun r => r.overallScore)) := by
  exact (C2_complete_idempotence st0 "s1" "u1" graderOk 5 6 (.ok graderOk) ses1 interview1
    (by refine ⟨?_, ?_, ?_⟩ <;> decide) (by decide) (by decide) (by decide) (by decide)
    (by decide) (by decide) (by decide) (by decide)
    (by decide) (by decide)).2.1

end Engine
